import Mathlib

/-!
Verification of the nfl-etl transform-and-load pipeline.

The definitions below are a shallow embedding of `src/etl/transform.py` and
`src/etl/load.py`.  DataFrames are modelled as lists of rows (structures with
one field per column, `Option` for nullable cells), and the pandas operations
used by the code (filter, groupby-sum, outer merge, fillna, drop_duplicates,
astype(str), dropna, to_numeric) are translated operation by operation.
-/

namespace NflEtl

/-! ## Generic list helpers -/

/-- First-occurrence deduplication, auxiliary: `seen` holds already-emitted
elements. -/
def dropDupAux {α : Type} [DecidableEq α] (seen : List α) : List α → List α
  | [] => []
  | x :: xs => if x ∈ seen then dropDupAux seen xs else x :: dropDupAux (x :: seen) xs

/-- `drop_duplicates` keeping the first occurrence of each element, as pandas
`DataFrame.drop_duplicates` does. -/
def dropDup {α : Type} [DecidableEq α] (l : List α) : List α := dropDupAux [] l

/-! ## transform.py : play-by-play rows and the stat aggregation -/

/-- One play-by-play event row, restricted to the columns `transform.py`
reads.  Flag columns (`pass_attempt`, `complete_pass`, `rush_attempt`) are
0/1 numerics that the code sums; yard columns may be negative. -/
structure PBPRow where
  game_id : String
  passer_player_id : String
  rusher_player_id : String
  receiver_player_id : String
  pass_attempt : Nat
  complete_pass : Nat
  rush_attempt : Nat
  passing_yards : Int
  pass_touchdown : Nat
  interception : Nat
  rushing_yards : Int
  rush_touchdown : Nat
  receiving_yards : Int
deriving Repr, DecidableEq

/-- Output row of `extract_passing_stats` (after the rename). -/
structure PassingStat where
  game_id : String
  player_id : String
  pass_attempts : Nat
  completions : Nat
  pass_yards : Int
  pass_tds : Nat
  interception : Nat
deriving Repr, DecidableEq

/-- Output row of `extract_rushing_stats` (after the rename). -/
structure RushingStat where
  game_id : String
  player_id : String
  rush_attempts : Nat
  rush_yards : Int
  rush_tds : Nat
deriving Repr, DecidableEq

/-- Output row of `extract_receiving_stats` (after the rename). -/
structure ReceivingStat where
  game_id : String
  player_id : String
  receptions : Nat
  rec_yards : Int
  rec_tds : Nat
deriving Repr, DecidableEq

/-- The plays selected by `pbp[pbp['pass_attempt'] == 1]`. -/
def passingPlays (pbp : List PBPRow) : List PBPRow :=
  pbp.filter (fun r => r.pass_attempt == 1)

/-- The plays selected by `pbp[pbp['rush_attempt'] == 1]`. -/
def rushingPlays (pbp : List PBPRow) : List PBPRow :=
  pbp.filter (fun r => r.rush_attempt == 1)

/-- The plays selected by `pbp[pbp['complete_pass'] == 1]`. -/
def receivingPlays (pbp : List PBPRow) : List PBPRow :=
  pbp.filter (fun r => r.complete_pass == 1)

/-- The distinct `(game_id, passer_player_id)` groupby keys of the passing
view. -/
def passingKeys (pbp : List PBPRow) : List (String × String) :=
  dropDup ((passingPlays pbp).map (fun r => (r.game_id, r.passer_player_id)))

/-- The distinct `(game_id, rusher_player_id)` groupby keys of the rushing
view. -/
def rushingKeys (pbp : List PBPRow) : List (String × String) :=
  dropDup ((rushingPlays pbp).map (fun r => (r.game_id, r.rusher_player_id)))

/-- The distinct `(game_id, receiver_player_id)` groupby keys of the
receiving view. -/
def receivingKeys (pbp : List PBPRow) : List (String × String) :=
  dropDup ((receivingPlays pbp).map (fun r => (r.game_id, r.receiver_player_id)))

/-- `extract_passing_stats`: filter on the attempt flag, group by
`(game_id, passer_player_id)`, sum the five stat columns, rename to the
canonical names. -/
def extract_passing_stats (pbp : List PBPRow) : List PassingStat :=
  let plays := passingPlays pbp
  (passingKeys pbp).map (fun k =>
    let grp := plays.filter (fun r => r.game_id == k.1 && r.passer_player_id == k.2)
    { game_id := k.1, player_id := k.2,
      pass_attempts := (grp.map PBPRow.pass_attempt).sum,
      completions := (grp.map PBPRow.complete_pass).sum,
      pass_yards := (grp.map PBPRow.passing_yards).sum,
      pass_tds := (grp.map PBPRow.pass_touchdown).sum,
      interception := (grp.map PBPRow.interception).sum })

/-- `extract_rushing_stats`: filter on the attempt flag, group by
`(game_id, rusher_player_id)`, sum the three stat columns, rename. -/
def extract_rushing_stats (pbp : List PBPRow) : List RushingStat :=
  let plays := rushingPlays pbp
  (rushingKeys pbp).map (fun k =>
    let grp := plays.filter (fun r => r.game_id == k.1 && r.rusher_player_id == k.2)
    { game_id := k.1, player_id := k.2,
      rush_attempts := (grp.map PBPRow.rush_attempt).sum,
      rush_yards := (grp.map PBPRow.rushing_yards).sum,
      rush_tds := (grp.map PBPRow.rush_touchdown).sum })

/-- `extract_receiving_stats`: filter on `complete_pass`, group by
`(game_id, receiver_player_id)`, sum (`pass_touchdown` is summed as the
receiving touchdown count), rename. -/
def extract_receiving_stats (pbp : List PBPRow) : List ReceivingStat :=
  let plays := receivingPlays pbp
  (receivingKeys pbp).map (fun k =>
    let grp := plays.filter (fun r => r.game_id == k.1 && r.receiver_player_id == k.2)
    { game_id := k.1, player_id := k.2,
      receptions := (grp.map PBPRow.complete_pass).sum,
      rec_yards := (grp.map PBPRow.receiving_yards).sum,
      rec_tds := (grp.map PBPRow.pass_touchdown).sum })

/-- A row of the combined table built by `combine_player_stats`.  A field is
`none` exactly when the corresponding cell is NaN (row came from a merge side
lacking that column) or the column is absent from the table altogether. -/
structure CombinedRow where
  game_id : String
  player_id : String
  pass_attempts : Option Nat := none
  completions : Option Nat := none
  pass_yards : Option Int := none
  pass_tds : Option Nat := none
  interception : Option Nat := none
  rush_attempts : Option Nat := none
  rush_yards : Option Int := none
  rush_tds : Option Nat := none
  receptions : Option Nat := none
  rec_yards : Option Int := none
  rec_tds : Option Nat := none
  total_tds : Option Nat := none
deriving Repr, DecidableEq

/-- The `(game_id, player_id)` composite key of a combined row. -/
def keyOf (r : CombinedRow) : String × String := (r.game_id, r.player_id)

/-- A passing-stat row viewed as a combined row (rushing/receiving columns
absent). -/
def ofPassing (s : PassingStat) : CombinedRow :=
  { game_id := s.game_id, player_id := s.player_id,
    pass_attempts := some s.pass_attempts, completions := some s.completions,
    pass_yards := some s.pass_yards, pass_tds := some s.pass_tds,
    interception := some s.interception }

/-- A rushing-stat row viewed as a combined row. -/
def ofRushing (s : RushingStat) : CombinedRow :=
  { game_id := s.game_id, player_id := s.player_id,
    rush_attempts := some s.rush_attempts, rush_yards := some s.rush_yards,
    rush_tds := some s.rush_tds }

/-- A receiving-stat row viewed as a combined row. -/
def ofReceiving (s : ReceivingStat) : CombinedRow :=
  { game_id := s.game_id, player_id := s.player_id,
    receptions := some s.receptions, rec_yards := some s.rec_yards,
    rec_tds := some s.rec_tds }

/-- Key equality used by `pd.merge(..., on=['game_id','player_id'])`. -/
def sameKey (a b : CombinedRow) : Bool :=
  a.game_id == b.game_id && a.player_id == b.player_id

/-- Cell-wise combination of two rows matched by the merge: the two sides
carry disjoint stat columns, so each cell is taken from whichever side has
it. -/
def mergeRow (a b : CombinedRow) : CombinedRow :=
  { game_id := a.game_id, player_id := a.player_id,
    pass_attempts := a.pass_attempts <|> b.pass_attempts,
    completions := a.completions <|> b.completions,
    pass_yards := a.pass_yards <|> b.pass_yards,
    pass_tds := a.pass_tds <|> b.pass_tds,
    interception := a.interception <|> b.interception,
    rush_attempts := a.rush_attempts <|> b.rush_attempts,
    rush_yards := a.rush_yards <|> b.rush_yards,
    rush_tds := a.rush_tds <|> b.rush_tds,
    receptions := a.receptions <|> b.receptions,
    rec_yards := a.rec_yards <|> b.rec_yards,
    rec_tds := a.rec_tds <|> b.rec_tds,
    total_tds := a.total_tds <|> b.total_tds }

/-- `pd.merge(left, right, on=['game_id','player_id'], how='outer')` for
key-unique sides: every left row, enriched with its matching right row when
one exists, followed by the unmatched right rows. -/
def outerMerge (left right : List CombinedRow) : List CombinedRow :=
  left.map (fun l =>
    match right.find? (fun r => sameKey l r) with
    | some r => mergeRow l r
    | none => l)
  ++ right.filter (fun r => !(left.any (fun l => sameKey l r)))

/-- One iteration of the `for df in [...]` accumulation loop in
`combine_player_stats`; `none` models the initial empty `all_stats` frame. -/
def combineStep (acc : Option (List CombinedRow)) (df : List CombinedRow) :
    Option (List CombinedRow) :=
  if df.isEmpty then acc
  else
    match acc with
    | none => some df
    | some a => some (outerMerge a df)

/-- The combined table: `rows` plus which per-category column groups exist in
the frame (a category's columns exist exactly when its view was non-empty and
hence merged in). -/
structure CombinedTable where
  hasPass : Bool
  hasRush : Bool
  hasRec : Bool
  rows : List CombinedRow
deriving Repr, DecidableEq

/-- `fillna(0)` over the numeric columns: a NaN cell of an existing column
becomes 0; columns absent from the frame are untouched (there is no cell to
fill). -/
def fillRow (hasPass hasRush hasRec : Bool) (r : CombinedRow) : CombinedRow :=
  { r with
    pass_attempts := if hasPass then some (r.pass_attempts.getD 0) else r.pass_attempts,
    completions := if hasPass then some (r.completions.getD 0) else r.completions,
    pass_yards := if hasPass then some (r.pass_yards.getD 0) else r.pass_yards,
    pass_tds := if hasPass then some (r.pass_tds.getD 0) else r.pass_tds,
    interception := if hasPass then some (r.interception.getD 0) else r.interception,
    rush_attempts := if hasRush then some (r.rush_attempts.getD 0) else r.rush_attempts,
    rush_yards := if hasRush then some (r.rush_yards.getD 0) else r.rush_yards,
    rush_tds := if hasRush then some (r.rush_tds.getD 0) else r.rush_tds,
    receptions := if hasRec then some (r.receptions.getD 0) else r.receptions,
    rec_yards := if hasRec then some (r.rec_yards.getD 0) else r.rec_yards,
    rec_tds := if hasRec then some (r.rec_tds.getD 0) else r.rec_tds }

/-- `total_tds` = row-wise sum of the `_tds`-suffixed columns present in the
frame; the column is only created when at least one `_tds` column exists. -/
def addTotal (hasPass hasRush hasRec : Bool) (r : CombinedRow) : CombinedRow :=
  if hasPass || hasRush || hasRec then
    let t := (if hasPass then r.pass_tds.getD 0 else 0)
      + (if hasRush then r.rush_tds.getD 0 else 0)
      + (if hasRec then r.rec_tds.getD 0 else 0)
    { r with total_tds := some t }
  else r

/-- `combine_player_stats`: accumulate the three views with outer merges in
source order, zero-fill the NaN cells of existing numeric columns, then
derive `total_tds`. -/
def combine_player_stats (p : List PassingStat) (ru : List RushingStat)
    (re : List ReceivingStat) : CombinedTable :=
  let acc := combineStep
    (combineStep (combineStep none (p.map ofPassing)) (ru.map ofRushing))
    (re.map ofReceiving)
  let hasPass := !p.isEmpty
  let hasRush := !ru.isEmpty
  let hasRec := !re.isEmpty
  { hasPass := hasPass, hasRush := hasRush, hasRec := hasRec,
    rows := (acc.getD []).map
      (fun r => addTotal hasPass hasRush hasRec (fillRow hasPass hasRush hasRec r)) }

/-- `transform_pbp_to_player_game`: extract the three role views and combine
them. -/
def transform_pbp_to_player_game (pbp : List PBPRow) : CombinedTable :=
  combine_player_stats (extract_passing_stats pbp) (extract_rushing_stats pbp)
    (extract_receiving_stats pbp)

/-! ## transform.py : the player dimension -/

/-- One roster snapshot row; `team` stands for the extra roster columns that
the five-column selection in `transform_players` discards. -/
structure RosterRow where
  player_id : String
  first_name : String
  last_name : String
  position : String
  birth_date : String
  team : String
deriving Repr, DecidableEq

/-- The five-column selection `df[['player_id','first_name','last_name',
'position','birth_date']]`. -/
structure RosterSel where
  player_id : String
  first_name : String
  last_name : String
  position : String
  birth_date : String
deriving Repr, DecidableEq

/-- A player-dimension row as produced by `transform_players`. -/
structure PlayerDimRow where
  player_id : String
  first_name : String
  last_name : String
  position : String
  birth_date : String
  full_name : String
deriving Repr, DecidableEq

/-- The column selection applied before `drop_duplicates`. -/
def selectRosterCols (r : RosterRow) : RosterSel :=
  { player_id := r.player_id, first_name := r.first_name,
    last_name := r.last_name, position := r.position,
    birth_date := r.birth_date }

/-- `transform_players`: select the five columns, `drop_duplicates()` over
the whole selected row (first occurrence kept), then derive
`full_name = first_name + ' ' + last_name`. -/
def transform_players (df : List RosterRow) : List PlayerDimRow :=
  (dropDup (df.map selectRosterCols)).map (fun r =>
    { player_id := r.player_id, first_name := r.first_name,
      last_name := r.last_name, position := r.position,
      birth_date := r.birth_date,
      full_name := r.first_name ++ " " ++ r.last_name })

/-! ## load.py : a small DataFrame model

`load.py` manipulates frames whose column sets vary, so here a frame is an
explicit column list plus rows of `(column, cell)` pairs.  A cell is NaN
(`null`), text, or an integer; fractional literals are outside the embedded
cell domain. -/

/-- A tabular cell. -/
inductive Cell where
  | null : Cell
  | str (s : String) : Cell
  | int (n : Int) : Cell
deriving Repr, DecidableEq

/-- `str(x)` as pandas `astype(str)` applies it: NaN prints as `"nan"`. -/
def Cell.pyStr : Cell → String
  | Cell.null => "nan"
  | Cell.str s => s
  | Cell.int n => toString n

/-- The string a key cell contributes to a VARCHAR key column. -/
def Cell.asKeyString : Cell → String
  | Cell.null => ""
  | Cell.str s => s
  | Cell.int n => toString n

/-- Parse a digit character. -/
def digitVal (c : Char) : Option Nat :=
  if c.isDigit then some (c.toNat - '0'.toNat) else none

/-- Parse a non-empty digit string into a number. -/
def digitsToNat? (l : List Char) : Option Nat :=
  match l with
  | [] => none
  | _ => l.foldl (fun acc c =>
      match acc, digitVal c with
      | some a, some d => some (a * 10 + d)
      | _, _ => none) (some 0)

/-- `int(s)` on integer-shaped text: an optional sign followed by digits;
anything else fails. -/
def strToInt? (s : String) : Option Int :=
  match s.data with
  | '-' :: rest => (digitsToNat? rest).map (fun n => -(n : Int))
  | l => (digitsToNat? l).map (fun n => (n : Int))

/-- `pd.to_numeric(errors='coerce')` on one cell: integers pass through,
integer-shaped text parses, anything else becomes NaN. -/
def Cell.toNumeric : Cell → Option Int
  | Cell.null => none
  | Cell.str s => strToInt? s
  | Cell.int n => some n

/-- A DataFrame: named columns and rows of `(column, cell)` pairs kept in
column order. -/
structure DF where
  cols : List String
  rows : List (List (String × Cell))
deriving Repr, DecidableEq

/-- Well-formed frame: every row carries exactly the frame's columns. -/
def DF.WF (df : DF) : Prop := ∀ r ∈ df.rows, r.map Prod.fst = df.cols

instance (df : DF) : Decidable df.WF :=
  inferInstanceAs (Decidable (∀ r ∈ df.rows, r.map Prod.fst = df.cols))

/-- The cell of `row` in column `c` (NaN when the label is absent). -/
def getCell (row : List (String × Cell)) (c : String) : Cell :=
  ((row.find? (fun p => p.1 == c)).map Prod.snd).getD Cell.null

/-- Rewrite every cell of column `c` in one row with `f`. -/
def mapCell (c : String) (f : Cell → Cell) (row : List (String × Cell)) :
    List (String × Cell) :=
  row.map (fun p => if p.1 == c then (p.1, f p.2) else p)

/-- `df[c] = df[c].map(f)`-style column rewrite (the source only applies it
to columns it knows are present). -/
def DF.mapCol (df : DF) (c : String) (f : Cell → Cell) : DF :=
  { df with rows := df.rows.map (mapCell c f) }

/-- `df.dropna(subset=ks)`: keep the rows whose cells in all of `ks` are not
NaN. -/
def DF.dropna (df : DF) (ks : List String) : DF :=
  { df with rows := df.rows.filter (fun row => ks.all (fun k => !(getCell row k == Cell.null))) }

/-- `df.rename(columns=m)` for a renaming function on labels. -/
def DF.rename (df : DF) (m : String → String) : DF :=
  { cols := df.cols.map m, rows := df.rows.map (fun row => row.map (fun p => (m p.1, p.2))) }

/-- `df[c] = v`: overwrite an existing column with a constant, or append a
new one. -/
def DF.setConstCol (df : DF) (c : String) (v : Cell) : DF :=
  if c ∈ df.cols then
    { df with rows := df.rows.map (mapCell c (fun _ => v)) }
  else
    { cols := df.cols ++ [c], rows := df.rows.map (fun row => row ++ [(c, v)]) }

/-- `df[cs]` column selection (labels in `cs` are assumed present). -/
def DF.select (df : DF) (cs : List String) : DF :=
  { cols := cs, rows := df.rows.map (fun row => cs.map (fun c => (c, getCell row c))) }

/-- `df[c].astype(str)`. -/
def DF.astypeStr (df : DF) (c : String) : DF :=
  df.mapCol c (fun cell => Cell.str cell.pyStr)

/-- `pd.to_numeric(df[c], errors='coerce').fillna(0).astype(int)`. -/
def DF.coerceNumeric (df : DF) (c : String) : DF :=
  df.mapCol c (fun cell => Cell.int (cell.toNumeric.getD 0))

/-- `df[c].fillna(v)`. -/
def DF.fillnaCol (df : DF) (c : String) (v : Cell) : DF :=
  df.mapCol c (fun cell => if cell == Cell.null then v else cell)

/-! ## load.py : staging preparation -/

/-- The staging column set of `stg_players`. -/
def playersStagingCols : List String :=
  ["player_id", "first_name", "last_name", "full_name", "position", "birth_date"]

/-- The declared numeric fact columns of `stg_player_game`. -/
def numericColumns : List String :=
  ["pass_attempts", "completions", "pass_yards", "pass_tds", "interception",
   "rush_attempts", "rush_yards", "rush_tds",
   "receptions", "rec_yards", "rec_tds", "total_tds", "fumbles"]

/-- The staging column set of `stg_player_game`. -/
def playerGameStagingCols : List String := ["game_id", "player_id"] ++ numericColumns

/-- `prepare_players_for_staging`: stringify `player_id`, then `dropna` on
it, sentinel-fill the text fields, and restrict to the staging columns that
are present. -/
def prepare_players_for_staging (df : DF) : DF :=
  let d := df.astypeStr "player_id"
  let d := d.dropna ["player_id"]
  let d := d.fillnaCol "first_name" (Cell.str "")
  let d := d.fillnaCol "last_name" (Cell.str "")
  let d := d.fillnaCol "full_name" (Cell.str "")
  let d := d.fillnaCol "position" (Cell.str "UNK")
  d.select (playersStagingCols.filter (fun c => c ∈ d.cols))

/-- The `column_mapping` rename in `prepare_player_game_for_staging`. -/
def pgRename (c : String) : String :=
  if c == "pass_completions" then "completions" else c

/-- One pass of the numeric-columns loop: `if col not in df.columns:
df[col] = 0 else: df[col] = to_numeric(df[col]).fillna(0).astype(int)`. -/
def ensureNumericStep (d : DF) (c : String) : DF :=
  if c ∈ d.cols then d.coerceNumeric c else d.setConstCol c (Cell.int 0)

/-- `prepare_player_game_for_staging`: stringify the two keys, `dropna` on
them, rename `pass_completions`, synthesize or integer-coerce every declared
numeric column, and restrict to the staging columns that are present. -/
def prepare_player_game_for_staging (df : DF) : DF :=
  let d := df.astypeStr "game_id"
  let d := d.astypeStr "player_id"
  let d := d.dropna ["game_id", "player_id"]
  let d := d.rename pgRename
  let d := numericColumns.foldl ensureNumericStep d
  d.select (playerGameStagingCols.filter (fun c => c ∈ d.cols))

/-- `prepare_injuries_for_staging`: stringify `player_id`, numeric-coerce
`season`/`week` when present (keeping NaN), and `dropna` on `player_id`. -/
def prepare_injuries_for_staging (df : DF) : DF :=
  if df.rows.isEmpty then df
  else
    let d := df.astypeStr "player_id"
    let d := if "season" ∈ d.cols then d.mapCol "season" (fun c => match c.toNumeric with | some n => Cell.int n | none => Cell.null) else d
    let d := if "week" ∈ d.cols then d.mapCol "week" (fun c => match c.toNumeric with | some n => Cell.int n | none => Cell.null) else d
    d.dropna ["player_id"]

/-! ## load.py : warehouse tables and the merge engine

The warehouse DDL is not part of `src/`; the key declarations used by the
merge statements are modelled from the spec (section 6 warehouse schema). -/

/-- Modelled from the spec: `dim_player(player_id PK, ...)` — one row per
`player_id`, with an `updated_at` timestamp excluded from the model. -/
structure DimPlayerRow where
  player_id : String
  first_name : Cell
  last_name : Cell
  full_name : Cell
  position : Cell
  birth_date : Cell
  active : Int
deriving Repr, DecidableEq

/-- Modelled from the spec: `fact_player_game(game_id, player_id, <stats>,
PK(game_id, player_id))`, `updated_at` excluded. -/
structure FactPlayerGameRow where
  game_id : String
  player_id : String
  pass_attempts : Int
  pass_completions : Int
  pass_yards : Int
  pass_tds : Int
  interception : Int
  rush_attempts : Int
  rush_yards : Int
  rush_tds : Int
  receptions : Int
  rec_yards : Int
  rec_tds : Int
  total_tds : Int
  fumbles : Int
deriving Repr, DecidableEq

/-- Modelled from the spec: `fact_player_injury(player_id, season, week,
injury_type, status)` with *no uniqueness constraint enforced*. -/
structure FactInjuryRow where
  player_id : String
  season : Cell
  week : Cell
  injury_type : Cell
  status : Cell
deriving Repr, DecidableEq

/-- Modelled from the spec: `meta_run_state(pipeline_name PK, last_run_at,
last_game_date, updated_at)`; timestamps are abstract `Nat` instants and
`updated_at` is excluded. -/
structure MetaRunStateRow where
  pipeline_name : String
  last_run_at : Nat
  last_game_date : Option String
deriving Repr, DecidableEq

/-- One source row of a MySQL `INSERT ... ON DUPLICATE KEY UPDATE`:
overwrite the non-key columns of the row holding its key when one exists,
otherwise insert a fresh row. -/
def upsertStep {ρ σ κ : Type} [BEq κ] (key : ρ → κ) (skey : σ → κ)
    (ov : ρ → σ → ρ) (ins : σ → ρ) (t : List ρ) (s : σ) : List ρ :=
  if t.any (fun r => key r == skey s) then
    t.map (fun r => if key r == skey s then ov r s else r)
  else t ++ [ins s]

/-- MySQL `INSERT ... ON DUPLICATE KEY UPDATE` row-at-a-time semantics over
a keyed table. -/
def upsertByKey {ρ σ κ : Type} [BEq κ] (key : ρ → κ) (skey : σ → κ)
    (ov : ρ → σ → ρ) (ins : σ → ρ) (src : List σ) (tbl : List ρ) : List ρ :=
  src.foldl (upsertStep key skey ov ins) tbl

/-- The last source row writing key `k`, if any. -/
def lastWrite {σ κ : Type} [BEq κ] (skey : σ → κ) (src : List σ) (k : κ) : Option σ :=
  (src.filter (fun s => skey s == k)).getLast?

/-- The net effect of a source list on one pre-existing row: the last write
to its key overwrites it. -/
def applyWrites {ρ σ κ : Type} [BEq κ] (key : ρ → κ) (skey : σ → κ)
    (ov : ρ → σ → ρ) (src : List σ) (r : ρ) : ρ :=
  ((lastWrite skey src (key r)).map (fun s => ov r s)).getD r

/-- The rows an upsert appends for keys absent from `ks`: the first source
row with a fresh key inserts, the last later write to that key overwrites. -/
def newPart {ρ σ κ : Type} [BEq κ] (skey : σ → κ) (ov : ρ → σ → ρ) (ins : σ → ρ) :
    List σ → List κ → List ρ
  | [], _ => []
  | s :: rest, ks =>
    if ks.contains (skey s) then newPart skey ov ins rest ks
    else (((lastWrite skey rest (skey s)).map (fun s2 => ov (ins s) s2)).getD (ins s))
      :: newPart skey ov ins rest (skey s :: ks)

/-- The staging rows selected by `FROM stg_players WHERE player_id IS NOT
NULL`, keyed by the VARCHAR value of `player_id`. -/
def stgPlayersSelect (stg : DF) : List (String × List (String × Cell)) :=
  stg.rows.filterMap (fun row =>
    match getCell row "player_id" with
    | Cell.null => none
    | c => some (c.asKeyString, row))

/-- The `ON DUPLICATE KEY UPDATE` column assignments of the players upsert
(every non-key column, plus `updated_at`, which the model omits). -/
def dimOverwrite (r : DimPlayerRow) (s : String × List (String × Cell)) : DimPlayerRow :=
  { r with first_name := getCell s.2 "first_name",
           last_name := getCell s.2 "last_name",
           full_name := getCell s.2 "full_name",
           position := getCell s.2 "position",
           birth_date := getCell s.2 "birth_date",
           active := 1 }

/-- The insert arm of the players upsert. -/
def dimInsert (s : String × List (String × Cell)) : DimPlayerRow :=
  { player_id := s.1,
    first_name := getCell s.2 "first_name",
    last_name := getCell s.2 "last_name",
    full_name := getCell s.2 "full_name",
    position := getCell s.2 "position",
    birth_date := getCell s.2 "birth_date",
    active := 1 }

/-- `upsert_players_from_stg`. -/
def upsert_players_from_stg (stg : DF) (tbl : List DimPlayerRow) : List DimPlayerRow :=
  upsertByKey DimPlayerRow.player_id Prod.fst dimOverwrite dimInsert
    (stgPlayersSelect stg) tbl

/-- `COALESCE(col, 0)` over a staging cell read into an INT column. -/
def coalesceInt (c : Cell) : Int := c.toNumeric.getD 0

/-- The staging rows selected by `FROM stg_player_game WHERE game_id IS NOT
NULL AND player_id IS NOT NULL`, with the SELECT-list coalescing applied. -/
def stgPlayerGameSelect (stg : DF) : List FactPlayerGameRow :=
  stg.rows.filterMap (fun row =>
    match getCell row "game_id", getCell row "player_id" with
    | Cell.null, _ => none
    | _, Cell.null => none
    | g, p => some
      { game_id := g.asKeyString, player_id := p.asKeyString,
        pass_attempts := coalesceInt (getCell row "pass_attempts"),
        pass_completions := coalesceInt (getCell row "completions"),
        pass_yards := coalesceInt (getCell row "pass_yards"),
        pass_tds := coalesceInt (getCell row "pass_tds"),
        interception := coalesceInt (getCell row "interception"),
        rush_attempts := coalesceInt (getCell row "rush_attempts"),
        rush_yards := coalesceInt (getCell row "rush_yards"),
        rush_tds := coalesceInt (getCell row "rush_tds"),
        receptions := coalesceInt (getCell row "receptions"),
        rec_yards := coalesceInt (getCell row "rec_yards"),
        rec_tds := coalesceInt (getCell row "rec_tds"),
        total_tds := coalesceInt (getCell row "total_tds"),
        fumbles := coalesceInt (getCell row "fumbles") })

/-- The composite key of a `fact_player_game` row. -/
def factGameKey (r : FactPlayerGameRow) : String × String := (r.game_id, r.player_id)

/-- The `ON DUPLICATE KEY UPDATE` column assignments of the player-game
upsert: every stat column from the staging side, the composite key kept. -/
def factGameOverwrite (r s : FactPlayerGameRow) : FactPlayerGameRow :=
  { s with game_id := r.game_id, player_id := r.player_id }

/-- `upsert_player_games_from_stg`. -/
def upsert_player_games_from_stg (stg : DF) (tbl : List FactPlayerGameRow) :
    List FactPlayerGameRow :=
  upsertByKey factGameKey factGameKey factGameOverwrite id
    (stgPlayerGameSelect stg) tbl

/-- The staging rows selected by `FROM stg_injuries WHERE player_id IS NOT
NULL`, projected onto the injury fact shape. -/
def injurySelectRow (row : List (String × Cell)) : Option FactInjuryRow :=
  match getCell row "player_id" with
  | Cell.null => none
  | c => some
    { player_id := c.asKeyString, season := getCell row "season",
      week := getCell row "week", injury_type := getCell row "injury_type",
      status := getCell row "status" }

/-- `upsert_injuries_from_stg`: `INSERT IGNORE ... WHERE player_id IS NOT
NULL`.  Modelled from the spec: `fact_player_injury` has no uniqueness
constraint, so `INSERT IGNORE` never hits a duplicate key and appends every
selected staging row. -/
def upsert_injuries_from_stg (stg : DF) (tbl : List FactInjuryRow) : List FactInjuryRow :=
  tbl ++ stg.rows.filterMap injurySelectRow

/-- `update_meta_run_state`: upsert the single row keyed by `pipeline_name`,
always refreshing `last_run_at` (`NOW()` is the abstract instant `now`) and
overwriting `last_game_date` with the value passed in. -/
def update_meta_run_state (now : Nat) (pipeline : String) (lgd : Option String)
    (tbl : List MetaRunStateRow) : List MetaRunStateRow :=
  if tbl.any (fun r => r.pipeline_name == pipeline) then
    tbl.map (fun r =>
      if r.pipeline_name == pipeline then
        { r with last_run_at := now, last_game_date := lgd }
      else r)
  else tbl ++ [{ pipeline_name := pipeline, last_run_at := now, last_game_date := lgd }]

/-! ## load.py : run_load -/

/-- `Series.max()` on the `date_key` column followed by `int(...)`, as the
`try` block evaluates it: pandas `max` skips NaN; an empty or mixed-type
result makes `int(...)` raise (caught by the bare `except`). -/
def pySeriesMaxInt (cells : List Cell) : Option Int :=
  let nn := cells.filter (fun c => !(c == Cell.null))
  if nn.isEmpty then none
  else if nn.all (fun c => match c with | Cell.int _ => true | _ => false) then
    (nn.filterMap (fun c => match c with | Cell.int n => some n | _ => none)).maximum
  else if nn.all (fun c => match c with | Cell.str _ => true | _ => false) then
    match (nn.filterMap (fun c => match c with | Cell.str s => some s | _ => none)).maximum with
    | some s => strToInt? s
    | none => none
  else none

/-- The `YYYYMMDD → "YYYY-MM-DD"` decoding by string slicing
(`str(k)[:4] + "-" + str(k)[4:6] + "-" + str(k)[6:]`). -/
def decodeDateKey (n : Int) : String :=
  let s := toString n
  s.take 4 ++ "-" ++ (s.drop 4).take 2 ++ "-" ++ s.drop 6

/-- The `last_game_date` computation in `run_load` (lines 258-265): only
when the prepared facts have a `date_key` column and at least one row is the
maximum date key decoded; otherwise it stays `None`. -/
def run_load_last_game_date (pg : DF) : Option String :=
  if "date_key" ∈ pg.cols ∧ 0 < pg.rows.length then
    match pySeriesMaxInt (pg.rows.map (fun row => getCell row "date_key")) with
    | some m => some (decodeDateKey m)
    | none => none
  else none

/-- The warehouse: staging tables, production tables, run metadata. -/
structure Warehouse where
  stg_players : DF
  stg_player_game : DF
  stg_injuries : DF
  dim_player : List DimPlayerRow
  fact_player_game : List FactPlayerGameRow
  fact_player_injury : List FactInjuryRow
  meta_run_state : List MetaRunStateRow
deriving Repr, DecidableEq

/-- The failure categories distinguished by the `__main__` handlers. -/
inductive LoadError where
  | fileNotFound (path : String)
  | sqlError
  | other
deriving Repr, DecidableEq

/-- The exit code chosen by the `__main__` exception handlers. -/
def mainExitCode (r : Except LoadError Unit) : Nat :=
  match r with
  | Except.ok _ => 0
  | Except.error (LoadError.fileNotFound _) => 2
  | Except.error LoadError.sqlError => 3
  | Except.error LoadError.other => 1

/-- `run_load`: a snapshot file is `none` when absent (`ensure_file` raises
`FileNotFoundError`), `some df` with its parsed contents otherwise.  The
returned warehouse reflects every mutation performed before the function
ended. -/
def run_load (now : Nat) (playersFile pgFile injFile : Option DF)
    (skip_injuries : Bool) (w : Warehouse) : Except LoadError Unit × Warehouse :=
  match playersFile with
  | none => (Except.error (LoadError.fileNotFound "transformed/dim_players.parquet"), w)
  | some playersDf =>
    match pgFile with
    | none => (Except.error (LoadError.fileNotFound "transformed/fact_player_game.parquet"), w)
    | some pgDf =>
      let players := prepare_players_for_staging playersDf
      let pg := prepare_player_game_for_staging pgDf
      let lgd := run_load_last_game_date pg
      let w1 := { w with stg_players := players }
      let w2 := { w1 with stg_player_game := pg }
      let w3 :=
        if !skip_injuries then
          match injFile with
          | some injDf =>
            if injDf.rows.isEmpty then w2
            else { w2 with stg_injuries := prepare_injuries_for_staging injDf }
          | none => w2
        else w2
      let w4 := { w3 with dim_player := upsert_players_from_stg w3.stg_players w3.dim_player }
      let w5 := { w4 with fact_player_game :=
        upsert_player_games_from_stg w4.stg_player_game w4.fact_player_game }
      let w6 :=
        if !skip_injuries && injFile.isSome then
          { w5 with fact_player_injury :=
            upsert_injuries_from_stg w5.stg_injuries w5.fact_player_injury }
        else w5
      let w7 := { w6 with meta_run_state :=
        update_meta_run_state now "nfl_pbp_load" lgd w6.meta_run_state }
      (Except.ok (), w7)

/-! ## Category-column predicates on combined rows -/

/-- All five passing columns of the row are NaN/absent. -/
def passNone (r : CombinedRow) : Prop :=
  r.pass_attempts = none ∧ r.completions = none ∧ r.pass_yards = none
    ∧ r.pass_tds = none ∧ r.interception = none

/-- All three rushing columns of the row are NaN/absent. -/
def rushNone (r : CombinedRow) : Prop :=
  r.rush_attempts = none ∧ r.rush_yards = none ∧ r.rush_tds = none

/-- All three receiving columns of the row are NaN/absent. -/
def recNone (r : CombinedRow) : Prop :=
  r.receptions = none ∧ r.rec_yards = none ∧ r.rec_tds = none

/-- All five passing columns hold a value (never null). -/
def passSome (r : CombinedRow) : Prop :=
  r.pass_attempts.isSome = true ∧ r.completions.isSome = true
    ∧ r.pass_yards.isSome = true ∧ r.pass_tds.isSome = true
    ∧ r.interception.isSome = true

/-- All three rushing columns hold a value. -/
def rushSome (r : CombinedRow) : Prop :=
  r.rush_attempts.isSome = true ∧ r.rush_yards.isSome = true
    ∧ r.rush_tds.isSome = true

/-- All three receiving columns hold a value. -/
def recSome (r : CombinedRow) : Prop :=
  r.receptions.isSome = true ∧ r.rec_yards.isSome = true ∧ r.rec_tds.isSome = true

/-- All five passing columns are zero. -/
def passZero (r : CombinedRow) : Prop :=
  r.pass_attempts = some 0 ∧ r.completions = some 0 ∧ r.pass_yards = some 0
    ∧ r.pass_tds = some 0 ∧ r.interception = some 0

/-- All three rushing columns are zero. -/
def rushZero (r : CombinedRow) : Prop :=
  r.rush_attempts = some 0 ∧ r.rush_yards = some 0 ∧ r.rush_tds = some 0

/-- All three receiving columns are zero. -/
def recZero (r : CombinedRow) : Prop :=
  r.receptions = some 0 ∧ r.rec_yards = some 0 ∧ r.rec_tds = some 0

/-- The merge invariant: a row carries no value in a category its key never
appeared in. -/
def RowInv (pbp : List PBPRow) (r : CombinedRow) : Prop :=
  (keyOf r ∉ passingKeys pbp → passNone r)
  ∧ (keyOf r ∉ rushingKeys pbp → rushNone r)
  ∧ (keyOf r ∉ receivingKeys pbp → recNone r)

/-! ## The section-8 concrete scenario -/

/-- A play-by-play row with every flag and stat zeroed. -/
def basePlay : PBPRow :=
  { game_id := "G1", passer_player_id := "", rusher_player_id := "",
    receiver_player_id := "", pass_attempt := 0, complete_pass := 0,
    rush_attempt := 0, passing_yards := 0, pass_touchdown := 0,
    interception := 0, rushing_yards := 0, rush_touchdown := 0,
    receiving_yards := 0 }

/-- The spec's section-8 scenario for game `G1`: passer `p1` with 10
attempts, 6 completions (to receiver `p1`), 120 yards, one touchdown, no
interceptions; rusher `p2` with 5 attempts for 22 yards and no touchdown. -/
def scenarioPbp : List PBPRow :=
  (List.replicate 5 { basePlay with
      passer_player_id := "p1", receiver_player_id := "p1",
      pass_attempt := 1, complete_pass := 1,
      passing_yards := 20, receiving_yards := 20 })
  ++ [{ basePlay with
      passer_player_id := "p1", receiver_player_id := "p1",
      pass_attempt := 1, complete_pass := 1, pass_touchdown := 1,
      passing_yards := 20, receiving_yards := 20 }]
  ++ (List.replicate 4 { basePlay with
      passer_player_id := "p1", pass_attempt := 1 })
  ++ (List.replicate 4 { basePlay with
      rusher_player_id := "p2", rush_attempt := 1, rushing_yards := 5 })
  ++ [{ basePlay with
      rusher_player_id := "p2", rush_attempt := 1, rushing_yards := 2 }]

/-- The combined table the scenario must produce. -/
def scenarioExpected : CombinedTable :=
  { hasPass := true, hasRush := true, hasRec := true,
    rows := [
      { game_id := "G1", player_id := "p1",
        pass_attempts := some 10, completions := some 6, pass_yards := some 120,
        pass_tds := some 1, interception := some 0,
        rush_attempts := some 0, rush_yards := some 0, rush_tds := some 0,
        receptions := some 6, rec_yards := some 120, rec_tds := some 1,
        total_tds := some 2 },
      { game_id := "G1", player_id := "p2",
        pass_attempts := some 0, completions := some 0, pass_yards := some 0,
        pass_tds := some 0, interception := some 0,
        rush_attempts := some 5, rush_yards := some 22, rush_tds := some 0,
        receptions := some 0, rec_yards := some 0, rec_tds := some 0,
        total_tds := some 0 }] }

/-! ## Concrete snapshots used by witnesses and counterexamples -/

/-- The five selected roster columns of a player-dimension row. -/
def toRosterSel (p : PlayerDimRow) : RosterSel :=
  { player_id := p.player_id, first_name := p.first_name, last_name := p.last_name,
    position := p.position, birth_date := p.birth_date }

/-- A roster snapshot with two rows for the same player identifier that
differ in `position`. -/
def rosterDupInput : List RosterRow :=
  [{ player_id := "p1", first_name := "A", last_name := "B", position := "QB",
     birth_date := "1990-01-01", team := "X" },
   { player_id := "p1", first_name := "A", last_name := "B", position := "WR",
     birth_date := "1990-01-01", team := "X" }]

/-- A roster snapshot with distinct, internally consistent players. -/
def rosterOkInput : List RosterRow :=
  [{ player_id := "p1", first_name := "A", last_name := "B", position := "QB",
     birth_date := "1990-01-01", team := "X" },
   { player_id := "p2", first_name := "C", last_name := "D", position := "RB",
     birth_date := "1991-02-02", team := "Y" }]

/-- A players snapshot with one row whose `player_id` is null. -/
def playersNullKeyInput : DF :=
  { cols := ["player_id", "first_name", "last_name", "full_name", "position", "birth_date"],
    rows := [[("player_id", Cell.null), ("first_name", Cell.str "A"),
              ("last_name", Cell.str "B"), ("full_name", Cell.str "A B"),
              ("position", Cell.str "QB"), ("birth_date", Cell.str "1990-01-01")]] }

/-- A player-game snapshot with one row whose `player_id` is null. -/
def pgNullKeyInput : DF :=
  { cols := ["game_id", "player_id", "pass_attempts"],
    rows := [[("game_id", Cell.str "G1"), ("player_id", Cell.null),
              ("pass_attempts", Cell.int 3)]] }

/-- A prepared facts table carrying a `date_key` column. -/
def pgWithDateKey : DF :=
  { cols := ["game_id", "player_id", "date_key"],
    rows := [[("game_id", Cell.str "G1"), ("player_id", Cell.str "p1"),
              ("date_key", Cell.int 20251105)],
             [("game_id", Cell.str "G2"), ("player_id", Cell.str "p1"),
              ("date_key", Cell.int 20250901)]] }

/-- The empty frame. -/
def emptyDF : DF := { cols := [], rows := [] }

/-- A warehouse with no staged or production data. -/
def emptyWarehouse : Warehouse :=
  { stg_players := emptyDF, stg_player_game := emptyDF, stg_injuries := emptyDF,
    dim_player := [], fact_player_game := [], fact_player_injury := [],
    meta_run_state := [] }

/-- A run-state table that already records a last-game date. -/
def metaTblInput : List MetaRunStateRow :=
  [{ pipeline_name := "nfl_pbp_load", last_run_at := 5,
     last_game_date := some "2025-11-05" }]

/-- The run-state row expected after the NULL-overwriting update. -/
def metaUpdatedRow : MetaRunStateRow :=
  { pipeline_name := "nfl_pbp_load", last_run_at := 7, last_game_date := none }

/-- An injury staging snapshot with one non-null-keyed row. -/
def injStg1 : DF :=
  { cols := ["player_id", "season", "week", "injury_type", "status"],
    rows := [[("player_id", Cell.str "p1"), ("season", Cell.int 2025),
              ("week", Cell.int 1), ("injury_type", Cell.str "knee"),
              ("status", Cell.str "out")]] }

/-- The injury fact row produced from `injStg1`'s single staging row. -/
def injRow1 : FactInjuryRow :=
  { player_id := "p1", season := Cell.int 2025, week := Cell.int 1,
    injury_type := Cell.str "knee", status := Cell.str "out" }

/-- A player-game snapshot exercising the numeric coercions: an unparseable
text cell, a null cell, an integer-shaped text cell, an extra column, and
most declared columns absent. -/
def pgCoerceInput : DF :=
  { cols := ["game_id", "player_id", "pass_yards", "rush_yards", "extra"],
    rows := [[("game_id", Cell.str "G1"), ("player_id", Cell.str "p1"),
              ("pass_yards", Cell.str "junk"), ("rush_yards", Cell.null),
              ("extra", Cell.int 9)],
             [("game_id", Cell.str "G1"), ("player_id", Cell.str "p2"),
              ("pass_yards", Cell.int 120), ("rush_yards", Cell.str "22"),
              ("extra", Cell.int 9)]] }

/-! ## Lemmas about first-occurrence deduplication -/

theorem mem_dropDupAux {α : Type} [DecidableEq α] (seen l : List α) (a : α) :
    a ∈ dropDupAux seen l ↔ a ∈ l ∧ a ∉ seen := by
  induction l generalizing seen with
  | nil => simp [dropDupAux]
  | cons x xs ih =>
    by_cases hx : x ∈ seen
    · rw [dropDupAux, if_pos hx, ih]
      constructor
      · rintro ⟨h1, h2⟩
        exact ⟨List.mem_cons_of_mem x h1, h2⟩
      · rintro ⟨h1, h2⟩
        rcases List.mem_cons.mp h1 with h1 | h1
        · subst h1; exact absurd hx h2
        · exact ⟨h1, h2⟩
    · rw [dropDupAux, if_neg hx]
      by_cases hax : a = x
      · subst hax
        simp [hx]
      · simp only [List.mem_cons, ih, List.mem_cons]
        constructor
        · rintro (h | ⟨h1, h2⟩)
          · exact absurd h hax
          · refine ⟨Or.inr h1, fun hc => h2 (Or.inr hc)⟩
        · rintro ⟨h | h, h2⟩
          · exact absurd h hax
          · exact Or.inr ⟨h, fun hc => (by rcases hc with hc | hc; exact hax hc; exact h2 hc)⟩

theorem nodup_dropDupAux {α : Type} [DecidableEq α] (seen l : List α) :
    (dropDupAux seen l).Nodup := by
  induction l generalizing seen with
  | nil => simp [dropDupAux]
  | cons x xs ih =>
    by_cases hx : x ∈ seen
    · rw [dropDupAux, if_pos hx]; exact ih seen
    · rw [dropDupAux, if_neg hx]
      refine List.nodup_cons.mpr ⟨?_, ih _⟩
      intro hmem
      exact ((mem_dropDupAux _ _ _).mp hmem).2 (List.mem_cons_self x seen)

theorem dropDupAux_sublist {α : Type} [DecidableEq α] (seen l : List α) :
    (dropDupAux seen l).Sublist l := by
  induction l generalizing seen with
  | nil => simp [dropDupAux]
  | cons x xs ih =>
    by_cases hx : x ∈ seen
    · rw [dropDupAux, if_pos hx]; exact (ih seen).cons x
    · rw [dropDupAux, if_neg hx]; exact (ih _).cons₂ x

theorem mem_dropDup {α : Type} [DecidableEq α] (l : List α) (a : α) :
    a ∈ dropDup l ↔ a ∈ l := by
  rw [dropDup, mem_dropDupAux]; simp

theorem nodup_dropDup {α : Type} [DecidableEq α] (l : List α) : (dropDup l).Nodup :=
  nodup_dropDupAux [] l

theorem dropDup_sublist {α : Type} [DecidableEq α] (l : List α) : (dropDup l).Sublist l :=
  dropDupAux_sublist [] l

/-! ## Lemmas about the DataFrame model -/

theorem find?_fst_isSome {row : List (String × Cell)} {c : String}
    (h : c ∈ row.map Prod.fst) : (row.find? (fun p => p.1 == c)).isSome := by
  rw [List.find?_isSome]
  obtain ⟨p, hp, hpc⟩ := List.mem_map.mp h
  exact ⟨p, hp, by simp [hpc]⟩

theorem mapCell_fst (c : String) (f : Cell → Cell) (row : List (String × Cell)) :
    (mapCell c f row).map Prod.fst = row.map Prod.fst := by
  unfold mapCell
  rw [List.map_map]
  apply List.map_congr_left
  intro p _
  by_cases h : p.1 = c <;> simp [h]

theorem getCell_mapCell_same (c : String) (f : Cell → Cell) (row : List (String × Cell)) :
    getCell (mapCell c f row) c
      = ((row.find? (fun p => p.1 == c)).map (fun p => f p.2)).getD Cell.null := by
  unfold getCell mapCell
  rw [List.find?_map]
  have hpred : ((fun p : String × Cell => p.1 == c) ∘ fun p : String × Cell =>
      if p.1 == c then (p.1, f p.2) else p) = fun p : String × Cell => p.1 == c := by
    funext p
    by_cases h : p.1 = c <;> simp [h]
  rw [hpred]
  cases hf : row.find? (fun p => p.1 == c) with
  | none => rfl
  | some p =>
    have hp : p.1 = c := by simpa using List.find?_some hf
    simp [hp]

theorem getCell_mapCell_of_mem (c : String) (f : Cell → Cell) (row : List (String × Cell))
    (h : c ∈ row.map Prod.fst) :
    getCell (mapCell c f row) c = f (getCell row c) := by
  rw [getCell_mapCell_same]
  cases hf : row.find? (fun p => p.1 == c) with
  | none => exact absurd (find?_fst_isSome h) (by simp [hf])
  | some p => simp [getCell, hf]

theorem getCell_mapCell_ne (c c' : String) (f : Cell → Cell) (row : List (String × Cell))
    (h : c' ≠ c) : getCell (mapCell c f row) c' = getCell row c' := by
  unfold getCell mapCell
  rw [List.find?_map]
  have hpred : ((fun p : String × Cell => p.1 == c') ∘ fun p : String × Cell =>
      if p.1 == c then (p.1, f p.2) else p) = fun p : String × Cell => p.1 == c' := by
    funext p
    by_cases hc : p.1 = c <;> simp [hc]
  rw [hpred]
  cases hf : row.find? (fun p => p.1 == c') with
  | none => rfl
  | some p =>
    have h1 : p.1 = c' := by simpa using List.find?_some hf
    have hne : ¬ p.1 = c := by rw [h1]; exact h
    simp [hne]

theorem getCell_append_left (row l : List (String × Cell)) (c : String)
    (h : c ∈ row.map Prod.fst) : getCell (row ++ l) c = getCell row c := by
  unfold getCell
  rw [List.find?_append]
  cases hf : row.find? (fun p => p.1 == c) with
  | none => exact absurd (find?_fst_isSome h) (by simp [hf])
  | some p => simp [hf]

theorem getCell_append_right (row l : List (String × Cell)) (c : String)
    (h : c ∉ row.map Prod.fst) : getCell (row ++ l) c = getCell l c := by
  unfold getCell
  rw [List.find?_append]
  have hf : row.find? (fun p => p.1 == c) = none := by
    rw [List.find?_eq_none]
    intro p hp hpc
    exact h (List.mem_map.mpr ⟨p, hp, by simpa using hpc⟩)
  simp [hf]

theorem WF_mapCol {df : DF} (h : df.WF) (c : String) (f : Cell → Cell) :
    (df.mapCol c f).WF := by
  intro r hr
  simp only [DF.mapCol, List.mem_map] at hr
  obtain ⟨row, hrow, rfl⟩ := hr
  rw [mapCell_fst]
  exact h row hrow

theorem WF_dropna {df : DF} (h : df.WF) (ks : List String) : (df.dropna ks).WF := by
  intro r hr
  exact h r (List.mem_of_mem_filter hr)

theorem WF_rename {df : DF} (h : df.WF) (m : String → String) : (df.rename m).WF := by
  intro r hr
  simp only [DF.rename, List.mem_map] at hr
  obtain ⟨row, hrow, rfl⟩ := hr
  simp only [DF.rename, List.map_map]
  rw [← h row hrow, List.map_map]
  rfl

theorem WF_setConstCol {df : DF} (h : df.WF) (c : String) (v : Cell) :
    (df.setConstCol c v).WF := by
  unfold DF.setConstCol
  by_cases hc : c ∈ df.cols
  · simp only [if_pos hc]
    intro r hr
    simp only [List.mem_map] at hr
    obtain ⟨row, hrow, rfl⟩ := hr
    rw [mapCell_fst]
    exact h row hrow
  · simp only [if_neg hc]
    intro r hr
    simp only [List.mem_map] at hr
    obtain ⟨row, hrow, rfl⟩ := hr
    simp only [List.map_append, List.map_cons, List.map_nil]
    rw [h row hrow]

theorem WF_select (df : DF) (cs : List String) : (df.select cs).WF := by
  intro r hr
  simp only [DF.select, List.mem_map] at hr
  obtain ⟨row, hrow, rfl⟩ := hr
  simp only [DF.select, List.map_map]
  have hid : (Prod.fst ∘ fun c => (c, getCell row c)) = id := rfl
  rw [hid, List.map_id]

theorem ensureNumericStep_rows_length (d : DF) (c : String) :
    (ensureNumericStep d c).rows.length = d.rows.length := by
  unfold ensureNumericStep DF.coerceNumeric DF.setConstCol DF.mapCol
  by_cases h : c ∈ d.cols
  · simp [h]
  · simp [h]

theorem foldEnsure_rows_length (cs : List String) (d : DF) :
    (cs.foldl ensureNumericStep d).rows.length = d.rows.length := by
  induction cs generalizing d with
  | nil => rfl
  | cons c cs ih => rw [List.foldl_cons, ih, ensureNumericStep_rows_length]

/-! ## C3 : null keys survive staging preparation -/

/-- C3: the staging preparers never drop a row: `astype(str)` runs before
`dropna`, turning every null key into the literal string `"nan"`, so the
`dropna` on the key columns can never remove anything; a null-keyed row
survives with key value `"nan"`.  This contradicts the claim (and the
code's own comment "Remove records with null keys"). -/
theorem C3_null_keys_not_dropped :
    (∀ df : DF, df.WF → "player_id" ∈ df.cols →
      (prepare_players_for_staging df).rows.length = df.rows.length)
    ∧ (∀ df : DF, df.WF → "game_id" ∈ df.cols → "player_id" ∈ df.cols →
      (prepare_player_game_for_staging df).rows.length = df.rows.length)
    ∧ (prepare_players_for_staging playersNullKeyInput).rows.length = 1
    ∧ (∀ row ∈ (prepare_players_for_staging playersNullKeyInput).rows,
        getCell row "player_id" = Cell.str "nan")
    ∧ (prepare_player_game_for_staging pgNullKeyInput).rows.length = 1
    ∧ (∀ row ∈ (prepare_player_game_for_staging pgNullKeyInput).rows,
        getCell row "player_id" = Cell.str "nan") := by
  refine ⟨?_, ?_, by decide, by decide, by decide, by decide⟩
  · intro df hwf hp
    have hfix : ((df.astypeStr "player_id").dropna ["player_id"]).rows
        = (df.astypeStr "player_id").rows := by
      apply List.filter_eq_self.mpr
      intro row' hrow'
      simp only [DF.astypeStr, DF.mapCol, List.mem_map] at hrow'
      obtain ⟨row, hrow, rfl⟩ := hrow'
      have hg : getCell (mapCell "player_id" (fun cell => Cell.str cell.pyStr) row) "player_id"
          = Cell.str (getCell row "player_id").pyStr :=
        getCell_mapCell_of_mem _ _ _ (by rw [hwf row hrow]; exact hp)
      simp [hg]
    simp only [prepare_players_for_staging, DF.select, DF.fillnaCol, DF.mapCol]
    simp only [List.length_map]
    rw [hfix]
    simp [DF.astypeStr, DF.mapCol]
  · intro df hwf hg hp
    have hwf1 : (df.astypeStr "game_id").WF := WF_mapCol hwf _ _
    have hfix : (((df.astypeStr "game_id").astypeStr "player_id").dropna
        ["game_id", "player_id"]).rows
        = ((df.astypeStr "game_id").astypeStr "player_id").rows := by
      apply List.filter_eq_self.mpr
      intro row' hrow'
      simp only [DF.astypeStr, DF.mapCol, List.mem_map] at hrow'
      obtain ⟨row1, hrow1, rfl⟩ := hrow'
      obtain ⟨row, hrow, rfl⟩ := hrow1
      have hcols : (mapCell "game_id" (fun cell => Cell.str cell.pyStr) row).map Prod.fst
          = df.cols := by rw [mapCell_fst]; exact hwf row hrow
      have hgg : getCell (mapCell "player_id" (fun cell => Cell.str cell.pyStr)
          (mapCell "game_id" (fun cell => Cell.str cell.pyStr) row)) "game_id"
          = getCell (mapCell "game_id" (fun cell => Cell.str cell.pyStr) row) "game_id" :=
        getCell_mapCell_ne _ _ _ _ (by decide)
      have hgv : getCell (mapCell "game_id" (fun cell => Cell.str cell.pyStr) row) "game_id"
          = Cell.str (getCell row "game_id").pyStr :=
        getCell_mapCell_of_mem _ _ _ (by rw [hwf row hrow]; exact hg)
      have hpv : getCell (mapCell "player_id" (fun cell => Cell.str cell.pyStr)
          (mapCell "game_id" (fun cell => Cell.str cell.pyStr) row)) "player_id"
          = Cell.str (getCell (mapCell "game_id" (fun cell => Cell.str cell.pyStr) row)
              "player_id").pyStr :=
        getCell_mapCell_of_mem _ _ _ (by rw [hcols]; exact hp)
      simp [hgg, hgv, hpv]
    simp only [prepare_player_game_for_staging, DF.select]
    simp only [List.length_map]
    rw [foldEnsure_rows_length]
    simp only [DF.rename, List.length_map]
    rw [hfix]
    simp [DF.astypeStr, DF.mapCol]

/-- Witness for C3's universally quantified conjuncts at the concrete
null-keyed snapshots. -/
theorem C3_null_keys_not_dropped_witness :
    (prepare_players_for_staging playersNullKeyInput).rows.length
        = playersNullKeyInput.rows.length
    ∧ (prepare_player_game_for_staging pgNullKeyInput).rows.length
        = pgNullKeyInput.rows.length :=
  ⟨C3_null_keys_not_dropped.1 playersNullKeyInput (by decide) (by decide),
   C3_null_keys_not_dropped.2.1 pgNullKeyInput (by decide) (by decide) (by decide)⟩

/-! ## C6 : the last-game-date computation -/

/-- C6: when the prepared facts carry a `date_key` column of integer date
keys and at least one row, `run_load` decodes the maximum key into
`YYYY-MM-DD` (in particular `20251105` to `"2025-11-05"`); with no
`date_key` column the date is left unset. -/
theorem C6_last_game_date :
    (∀ pg : DF, "date_key" ∈ pg.cols → 0 < pg.rows.length →
      (∀ row ∈ pg.rows, ∃ n : Int, getCell row "date_key" = Cell.int n) →
      ∃ m : Int, run_load_last_game_date pg = some (decodeDateKey m)
        ∧ Cell.int m ∈ pg.rows.map (fun row => getCell row "date_key")
        ∧ (∀ row ∈ pg.rows, ∀ n : Int, getCell row "date_key" = Cell.int n → n ≤ m))
    ∧ decodeDateKey 20251105 = "2025-11-05"
    ∧ (∀ pg : DF, "date_key" ∉ pg.cols → run_load_last_game_date pg = none) := by
  refine ⟨?_, by decide, ?_⟩
  · intro pg hmem hlen hint
    have hcellsInt : ∀ c ∈ pg.rows.map (fun row => getCell row "date_key"),
        ∃ n : Int, c = Cell.int n := by
      intro c hc
      obtain ⟨row, hrow, rfl⟩ := List.mem_map.mp hc
      exact hint row hrow
    have hfilter : ((pg.rows.map (fun row => getCell row "date_key")).filter
        (fun c => !(c == Cell.null))) = pg.rows.map (fun row => getCell row "date_key") := by
      apply List.filter_eq_self.mpr
      intro c hc
      obtain ⟨n, rfl⟩ := hcellsInt c hc
      rfl
    have hne : pg.rows.map (fun row => getCell row "date_key") ≠ [] := by
      intro hnil
      have hl := congrArg List.length hnil
      rw [List.length_map] at hl
      rw [hl] at hlen
      exact Nat.lt_irrefl 0 hlen
    have hallint : (pg.rows.map (fun row => getCell row "date_key")).all
        (fun c => match c with | Cell.int _ => true | _ => false) = true := by
      apply List.all_eq_true.mpr
      intro c hc
      obtain ⟨n, rfl⟩ := hcellsInt c hc
      rfl
    have hintsne : (pg.rows.map (fun row => getCell row "date_key")).filterMap
        (fun c => match c with | Cell.int n => some n | _ => none) ≠ [] := by
      cases hc : pg.rows.map (fun row => getCell row "date_key") with
      | nil => exact absurd hc hne
      | cons c0 cr =>
        obtain ⟨n0, rfl⟩ := hcellsInt c0 (by rw [hc]; exact List.mem_cons_self _ _)
        simp [List.filterMap_cons]
    obtain ⟨m, hmax⟩ : ∃ m : Int, ((pg.rows.map (fun row => getCell row "date_key")).filterMap
        (fun c => match c with | Cell.int n => some n | _ => none)).maximum = some m := by
      cases hm : ((pg.rows.map (fun row => getCell row "date_key")).filterMap
          (fun c => match c with | Cell.int n => some n | _ => none)).maximum with
      | bot => exact absurd (List.maximum_eq_none.mp hm) hintsne
      | coe m => exact ⟨m, rfl⟩
    have hchar := List.maximum_eq_coe_iff.mp hmax
    refine ⟨m, ?_, ?_, ?_⟩
    · rw [run_load_last_game_date, if_pos ⟨hmem, hlen⟩]
      simp only [pySeriesMaxInt, hfilter]
      rw [if_neg (by simp [List.isEmpty_iff, hne]), if_pos hallint, hmax]
    · obtain ⟨c, hcmem, hcex⟩ := List.mem_filterMap.mp hchar.1
      obtain ⟨n, rfl⟩ := hcellsInt c hcmem
      have : n = m := by simpa using hcex
      rw [← this]
      exact hcmem
    · intro row hrow n hn
      apply hchar.2
      apply List.mem_filterMap.mpr
      exact ⟨Cell.int n, List.mem_map.mpr ⟨row, hrow, hn⟩, rfl⟩
  · intro pg hnk
    rw [run_load_last_game_date, if_neg (fun hcon => hnk hcon.1)]

/-- Witness for C6 at the concrete two-row facts table. -/
theorem C6_last_game_date_witness :
    ∃ m : Int, run_load_last_game_date pgWithDateKey = some (decodeDateKey m)
      ∧ Cell.int m ∈ pgWithDateKey.rows.map (fun row => getCell row "date_key")
      ∧ (∀ row ∈ pgWithDateKey.rows, ∀ n : Int,
          getCell row "date_key" = Cell.int n → n ≤ m) :=
  C6_last_game_date.1 pgWithDateKey (by decide) (by decide)
    (by intro row hrow; fin_cases hrow
        · exact ⟨20251105, rfl⟩
        · exact ⟨20250901, rfl⟩)

/-! ## C7 : missing-file fatality -/

/-- C7: when the player-dimension or the player-game parquet is absent, the
load run fails with `FileNotFoundError` before touching the warehouse: the
`__main__` handler maps it to exit code 2 and every table is unchanged. -/
theorem C7_missing_file (now : Nat) (pf pgf inj : Option DF) (skip : Bool)
    (w : Warehouse) (h : pf = none ∨ pgf = none) :
    mainExitCode (run_load now pf pgf inj skip w).1 = 2
    ∧ (run_load now pf pgf inj skip w).2 = w
    ∧ ∃ p, (run_load now pf pgf inj skip w).1 = Except.error (LoadError.fileNotFound p) := by
  rcases h with h | h
  · subst h
    exact ⟨rfl, rfl, ⟨_, rfl⟩⟩
  · subst h
    cases pf with
    | none => exact ⟨rfl, rfl, ⟨_, rfl⟩⟩
    | some d => exact ⟨rfl, rfl, ⟨_, rfl⟩⟩

/-- Witness for C7: a concrete run with both intermediate files absent. -/
theorem C7_missing_file_witness :
    mainExitCode (run_load 0 none none none false emptyWarehouse).1 = 2
    ∧ (run_load 0 none none none false emptyWarehouse).2 = emptyWarehouse :=
  ⟨(C7_missing_file 0 none none none false emptyWarehouse (Or.inl rfl)).1,
   (C7_missing_file 0 none none none false emptyWarehouse (Or.inl rfl)).2.1⟩

/-! ## C10 : meta run-state overwrite with NULL -/

/-- C10: when a run-state row for the pipeline already exists,
`update_meta_run_state` called with no last-game date (as `run_load` does
whenever the prepared facts lack a `date_key` column) overwrites the stored
`last_game_date` with NULL and refreshes `last_run_at`, leaving other
pipelines' rows unchanged. -/
theorem C10_meta_overwrites_null (now : Nat) (pipeline : String)
    (tbl : List MetaRunStateRow) (h : ∃ r ∈ tbl, r.pipeline_name = pipeline) :
    update_meta_run_state now pipeline none tbl
      = tbl.map (fun r => if r.pipeline_name == pipeline
          then { r with last_run_at := now, last_game_date := none } else r)
    ∧ (∀ r' ∈ update_meta_run_state now pipeline none tbl,
        r'.pipeline_name = pipeline → r'.last_game_date = none ∧ r'.last_run_at = now)
    ∧ (∀ pg : DF, "date_key" ∉ pg.cols → run_load_last_game_date pg = none) := by
  have hany : tbl.any (fun r => r.pipeline_name == pipeline) = true := by
    obtain ⟨r, hr, hrp⟩ := h
    exact List.any_eq_true.mpr ⟨r, hr, by simp [hrp]⟩
  refine ⟨?_, ?_, ?_⟩
  · rw [update_meta_run_state, if_pos hany]
  · intro r' hr' hp'
    rw [update_meta_run_state, if_pos hany] at hr'
    obtain ⟨r, hr, rfl⟩ := List.mem_map.mp hr'
    by_cases hc : r.pipeline_name = pipeline
    · simp [hc]
    · have hbeq : (r.pipeline_name == pipeline) = false := by simpa using hc
      rw [hbeq] at hp'
      simp at hp'
      exact absurd hp' hc
  · intro pg hnk
    rw [run_load_last_game_date, if_neg (fun hcon => hnk hcon.1)]

/-- Witness for C10: the previously recorded date is replaced by NULL. -/
theorem C10_meta_overwrites_null_witness :
    metaUpdatedRow.last_game_date = none ∧ metaUpdatedRow.last_run_at = 7 :=
  (C10_meta_overwrites_null 7 "nfl_pbp_load" metaTblInput
    ⟨_, List.mem_cons_self _ _, rfl⟩).2.1 metaUpdatedRow (by decide) (by decide)

/-! ## C2 : the player-dimension deduplication -/

theorem transform_players_map_sel (df : List RosterRow) :
    (transform_players df).map toRosterSel = dropDup (df.map selectRosterCols) := by
  have hcomp : (toRosterSel ∘ fun (r : RosterSel) =>
      ({ player_id := r.player_id, first_name := r.first_name,
         last_name := r.last_name, position := r.position,
         birth_date := r.birth_date,
         full_name := r.first_name ++ " " ++ r.last_name } : PlayerDimRow)) = id := by
    funext r; cases r; rfl
  rw [transform_players, List.map_map, hcomp, List.map_id]

/-- C2 counterexample: `transform_players` deduplicates whole five-column
rows, so a roster with two rows for player `p1` differing only in
`position` yields two output rows with player identifier `p1` — the output
is not unique per player identifier. -/
theorem C2_counterexample :
    ((transform_players rosterDupInput).map PlayerDimRow.player_id) = ["p1", "p1"]
    ∧ ¬ ((transform_players rosterDupInput).map PlayerDimRow.player_id).Nodup := by
  decide

/-- C2 (amended): `transform_players` keeps exactly one row per distinct
five-column value (first occurrence, in input order); uniqueness per player
identifier holds when all input rows sharing an identifier agree on the five
selected columns. -/
theorem C2_transform_players_dedup (df : List RosterRow) :
    ((transform_players df).map toRosterSel).Nodup
    ∧ ((transform_players df).map toRosterSel).Sublist (df.map selectRosterCols)
    ∧ (∀ s, s ∈ (transform_players df).map toRosterSel ↔ s ∈ df.map selectRosterCols)
    ∧ ((∀ a ∈ df, ∀ b ∈ df, a.player_id = b.player_id → selectRosterCols a = selectRosterCols b) →
        ((transform_players df).map PlayerDimRow.player_id).Nodup) := by
  refine ⟨?_, ?_, ?_, ?_⟩
  · rw [transform_players_map_sel]; exact nodup_dropDup _
  · rw [transform_players_map_sel]; exact dropDup_sublist _
  · intro s; rw [transform_players_map_sel, mem_dropDup]
  · intro hfun
    have hid : (transform_players df).map PlayerDimRow.player_id
        = ((transform_players df).map toRosterSel).map RosterSel.player_id := by
      rw [List.map_map]; rfl
    rw [hid]
    refine List.Nodup.map_on ?_ (by rw [transform_players_map_sel]; exact nodup_dropDup _)
    intro x hx y hy hxy
    rw [transform_players_map_sel, mem_dropDup, List.mem_map] at hx hy
    obtain ⟨a, ha, rfl⟩ := hx
    obtain ⟨b, hb, rfl⟩ := hy
    exact hfun a ha b hb hxy

/-- Witness for C2: on a roster whose rows per identifier agree, the
deduplicated dimension has unique player identifiers. -/
theorem C2_transform_players_dedup_witness :
    ((transform_players rosterOkInput).map PlayerDimRow.player_id).Nodup :=
  (C2_transform_players_dedup rosterOkInput).2.2.2 (by decide)

/-! ## The keyed upsert: characterization and idempotence -/

section UpsertLemmas

variable {ρ σ κ : Type} [BEq κ] [LawfulBEq κ]
variable {key : ρ → κ} {skey : σ → κ} {ov : ρ → σ → ρ} {ins : σ → ρ}

theorem getLast?_cons_isSome {α : Type} (a : α) (l : List α) :
    ((a :: l).getLast?).isSome := by
  induction l generalizing a with
  | nil => rfl
  | cons b t ih => rw [List.getLast?_cons_cons]; exact ih b

theorem getLast?_cons_of_ne_nil {α : Type} {l : List α} (a : α) (h : l ≠ []) :
    (a :: l).getLast? = l.getLast? := by
  cases l with
  | nil => exact absurd rfl h
  | cons b t => rw [List.getLast?_cons_cons]

theorem lastWrite_cons_eq (s : σ) (src : List σ) (k : κ) (h : skey s = k) :
    lastWrite skey (s :: src) k = some ((lastWrite skey src k).getD s) := by
  unfold lastWrite
  rw [List.filter_cons, if_pos (by simp [h])]
  cases hl : (src.filter (fun x => skey x == k)).getLast? with
  | none =>
    rw [List.getLast?_eq_none_iff.mp hl]
    rfl
  | some s2 =>
    have hne : src.filter (fun x => skey x == k) ≠ [] := by
      intro hc; rw [hc] at hl; exact Option.noConfusion hl
    rw [getLast?_cons_of_ne_nil _ hne, hl]
    rfl

theorem lastWrite_cons_ne (s : σ) (src : List σ) (k : κ) (h : skey s ≠ k) :
    lastWrite skey (s :: src) k = lastWrite skey src k := by
  unfold lastWrite
  rw [List.filter_cons, if_neg (by simp [h])]

theorem applyWrites_nil (r : ρ) : applyWrites key skey ov [] r = r := rfl

theorem applyWrites_key (hovkey : ∀ r s, key (ov r s) = key r) (src : List σ) (r : ρ) :
    key (applyWrites key skey ov src r) = key r := by
  unfold applyWrites
  cases h : lastWrite skey src (key r) with
  | none => rfl
  | some s => simpa using hovkey r s

theorem applyWrites_cons (hovkey : ∀ r s, key (ov r s) = key r)
    (hovcongr : ∀ r1 r2 s, key r1 = key r2 → ov r1 s = ov r2 s)
    (s : σ) (src : List σ) (r : ρ) :
    applyWrites key skey ov (s :: src) r
      = if key r == skey s then applyWrites key skey ov src (ov r s)
        else applyWrites key skey ov src r := by
  by_cases h : key r = skey s
  · rw [if_pos (by simp [h])]
    unfold applyWrites
    rw [hovkey, lastWrite_cons_eq s src (key r) h.symm]
    cases hl : lastWrite skey src (key r) with
    | none => simp
    | some s2 =>
      simp only [Option.getD_some, Option.map_some']
      exact (hovcongr (ov r s) r s2 (hovkey r s)).symm ▸ rfl
  · rw [if_neg (by simp [h])]
    unfold applyWrites
    rw [lastWrite_cons_ne s src (key r) (fun hc => h hc.symm)]

theorem applyWrites_idem (hovkey : ∀ r s, key (ov r s) = key r)
    (hovcongr : ∀ r1 r2 s, key r1 = key r2 → ov r1 s = ov r2 s)
    (src : List σ) (r : ρ) :
    applyWrites key skey ov src (applyWrites key skey ov src r)
      = applyWrites key skey ov src r := by
  cases h : lastWrite skey src (key r) with
  | none =>
    have e : applyWrites key skey ov src r = r := by
      unfold applyWrites; rw [h]; rfl
    rw [e]
    exact e
  | some s =>
    have e : applyWrites key skey ov src r = ov r s := by
      unfold applyWrites; rw [h]; rfl
    rw [e]
    unfold applyWrites
    rw [hovkey, h]
    simpa using hovcongr (ov r s) r s (hovkey r s)

theorem upsertStep_preserves_present (hovkey : ∀ r s, key (ov r s) = key r)
    (t : List ρ) (s : σ) (k : κ) (h : ∃ r ∈ t, key r = k) :
    ∃ r ∈ upsertStep key skey ov ins t s, key r = k := by
  obtain ⟨r, hr, hk⟩ := h
  unfold upsertStep
  by_cases ha : t.any (fun x => key x == skey s)
  · rw [if_pos ha]
    by_cases hrs : key r = skey s
    · exact ⟨ov r s, List.mem_map.mpr ⟨r, hr, by rw [if_pos (by simp [hrs])]⟩,
        by rw [hovkey, hk]⟩
    · exact ⟨r, List.mem_map.mpr ⟨r, hr, by rw [if_neg (by simp [hrs])]⟩, hk⟩
  · rw [if_neg ha]
    exact ⟨r, List.mem_append_left _ hr, hk⟩

theorem upsertStep_own_present (hovkey : ∀ r s, key (ov r s) = key r)
    (hinskey : ∀ s, key (ins s) = skey s) (t : List ρ) (s : σ) :
    ∃ r ∈ upsertStep key skey ov ins t s, key r = skey s := by
  unfold upsertStep
  by_cases ha : t.any (fun x => key x == skey s)
  · rw [if_pos ha]
    obtain ⟨r, hr, hrs⟩ := List.any_eq_true.mp ha
    have hrs2 : key r = skey s := by simpa using hrs
    exact ⟨ov r s, List.mem_map.mpr ⟨r, hr, by rw [if_pos (by simp [hrs2])]⟩,
      by rw [hovkey, hrs2]⟩
  · rw [if_neg ha]
    exact ⟨ins s, List.mem_append_right _ (List.mem_cons_self _ _), hinskey s⟩

theorem upsertByKey_preserves_present (hovkey : ∀ r s, key (ov r s) = key r)
    (src : List σ) (tbl : List ρ) (k : κ) (h : ∃ r ∈ tbl, key r = k) :
    ∃ r ∈ upsertByKey key skey ov ins src tbl, key r = k := by
  induction src generalizing tbl with
  | nil => exact h
  | cons s rest ih =>
    exact ih (upsertStep key skey ov ins tbl s)
      (upsertStep_preserves_present hovkey tbl s k h)

theorem upsertByKey_present (hovkey : ∀ r s, key (ov r s) = key r)
    (hinskey : ∀ s, key (ins s) = skey s) (src : List σ) (tbl : List ρ) :
    ∀ sEl ∈ src, ∃ r ∈ upsertByKey key skey ov ins src tbl, key r = skey sEl := by
  induction src generalizing tbl with
  | nil => intro sEl h; cases h
  | cons s rest ih =>
    intro sEl hmem
    rcases List.mem_cons.mp hmem with rfl | hmem
    · exact upsertByKey_preserves_present hovkey rest _ _
        (upsertStep_own_present hovkey hinskey tbl sEl)
    · exact ih (upsertStep key skey ov ins tbl s) sEl hmem

theorem newPart_cons (s : σ) (rest : List σ) (ks : List κ) :
    newPart skey ov ins (s :: rest) ks
      = if ks.contains (skey s) then newPart skey ov ins rest ks
        else (((lastWrite skey rest (skey s)).map (fun s2 => ov (ins s) s2)).getD (ins s))
          :: newPart skey ov ins rest (skey s :: ks) := rfl

theorem newPart_congr (src : List σ) (ks ks2 : List κ)
    (h : ∀ k, ks.contains k = ks2.contains k) :
    newPart skey ov ins src ks = newPart skey ov ins src ks2 := by
  induction src generalizing ks ks2 with
  | nil => rfl
  | cons s rest ih =>
    rw [newPart_cons, newPart_cons, h (skey s)]
    by_cases hc : ks2.contains (skey s)
    · rw [if_pos hc, if_pos hc]
      exact ih ks ks2 h
    · rw [if_neg hc, if_neg hc]
      congr 1
      exact ih (skey s :: ks) (skey s :: ks2)
        (by intro k; rw [List.contains_cons, List.contains_cons, h k])

theorem newPart_head_key (hovkey : ∀ r s, key (ov r s) = key r)
    (hinskey : ∀ s, key (ins s) = skey s) (s : σ) (rest : List σ) :
    key (((lastWrite skey rest (skey s)).map (fun s2 => ov (ins s) s2)).getD (ins s))
      = skey s := by
  cases hl : lastWrite skey rest (skey s) with
  | none => simpa using hinskey s
  | some s2 => simp [hovkey, hinskey]

theorem newPart_key_not_mem (hovkey : ∀ r s, key (ov r s) = key r)
    (hinskey : ∀ s, key (ins s) = skey s) (src : List σ) (ks : List κ) :
    ∀ r ∈ newPart skey ov ins src ks, ks.contains (key r) = false := by
  induction src generalizing ks with
  | nil => intro r h; cases h
  | cons s rest ih =>
    intro r hr
    rw [newPart_cons] at hr
    by_cases hc : ks.contains (skey s)
    · rw [if_pos hc] at hr
      exact ih ks r hr
    · rw [if_neg hc] at hr
      rcases List.mem_cons.mp hr with rfl | hr
      · rw [newPart_head_key hovkey hinskey]
        exact Bool.eq_false_iff.mpr hc
      · have h2 := ih (skey s :: ks) r hr
        rw [List.contains_cons] at h2
        exact (Bool.or_eq_false_iff.mp h2).2

theorem newPart_nil_of_contains (src : List σ) (ks : List κ)
    (h : ∀ s ∈ src, ks.contains (skey s) = true) :
    newPart skey ov ins src ks = [] := by
  induction src with
  | nil => rfl
  | cons s rest ih =>
    rw [newPart_cons, if_pos (h s (List.mem_cons_self s rest))]
    exact ih (fun s2 h2 => h s2 (List.mem_cons_of_mem s h2))

theorem newPart_fixed (hovkey : ∀ r s, key (ov r s) = key r)
    (hovcongr : ∀ r1 r2 s, key r1 = key r2 → ov r1 s = ov r2 s)
    (hinskey : ∀ s, key (ins s) = skey s)
    (hovins : ∀ s, ov (ins s) s = ins s) (src : List σ) (ks : List κ) :
    ∀ r ∈ newPart skey ov ins src ks, applyWrites key skey ov src r = r := by
  induction src generalizing ks with
  | nil => intro r h; cases h
  | cons s rest ih =>
    intro r hr
    rw [newPart_cons] at hr
    by_cases hc : ks.contains (skey s)
    · rw [if_pos hc] at hr
      have hkey := newPart_key_not_mem hovkey hinskey rest ks r hr
      have hne : key r ≠ skey s := by
        intro he
        rw [he, hc] at hkey
        exact Bool.noConfusion hkey
      rw [applyWrites_cons hovkey hovcongr, if_neg (by simp [hne])]
      exact ih ks r hr
    · rw [if_neg hc] at hr
      rcases List.mem_cons.mp hr with rfl | hr
      · rw [applyWrites_cons hovkey hovcongr,
          if_pos (by simp [newPart_head_key hovkey hinskey s rest])]
        cases hl : lastWrite skey rest (skey s) with
        | none =>
          simp only [Option.map_none', Option.getD_none]
          rw [hovins]
          unfold applyWrites
          rw [hinskey, hl]
          rfl
        | some s2 =>
          simp only [Option.map_some', Option.getD_some]
          unfold applyWrites
          rw [hovkey, hovkey, hinskey, hl]
          simp only [Option.map_some', Option.getD_some]
          exact hovcongr _ _ _ (by rw [hovkey, hovkey])
      · have hkey := newPart_key_not_mem hovkey hinskey rest (skey s :: ks) r hr
        rw [List.contains_cons] at hkey
        have hne : (key r == skey s) = false := (Bool.or_eq_false_iff.mp hkey).1
        rw [applyWrites_cons hovkey hovcongr, if_neg (by simp [hne])]
        exact ih (skey s :: ks) r hr

theorem upsertByKey_char (hovkey : ∀ r s, key (ov r s) = key r)
    (hovcongr : ∀ r1 r2 s, key r1 = key r2 → ov r1 s = ov r2 s)
    (hinskey : ∀ s, key (ins s) = skey s) (src : List σ) (tbl : List ρ) :
    upsertByKey key skey ov ins src tbl
      = tbl.map (applyWrites key skey ov src)
        ++ newPart skey ov ins src (tbl.map key) := by
  induction src generalizing tbl with
  | nil =>
    show tbl = tbl.map (applyWrites key skey ov []) ++ newPart skey ov ins [] (tbl.map key)
    rw [show newPart skey ov ins ([] : List σ) (tbl.map key) = [] from rfl, List.append_nil]
    conv_lhs => rw [← List.map_id tbl]
    apply List.map_congr_left
    intro r _
    rfl
  | cons s rest ih =>
    show upsertByKey key skey ov ins rest (upsertStep key skey ov ins tbl s) = _
    rw [ih]
    by_cases hk : tbl.any (fun r => key r == skey s)
    · have hstep : upsertStep key skey ov ins tbl s
          = tbl.map (fun r => if key r == skey s then ov r s else r) := by
        unfold upsertStep; rw [if_pos hk]
      rw [hstep]
      have hkeys : (tbl.map (fun r => if key r == skey s then ov r s else r)).map key
          = tbl.map key := by
        rw [List.map_map]
        apply List.map_congr_left
        intro r _
        show key (if key r == skey s then ov r s else r) = key r
        by_cases hrs : key r = skey s
        · rw [if_pos (by simp [hrs]), hovkey]
        · rw [if_neg (by simp [hrs])]
      rw [hkeys]
      have hmaps : (tbl.map (fun r => if key r == skey s then ov r s else r)).map
          (applyWrites key skey ov rest) = tbl.map (applyWrites key skey ov (s :: rest)) := by
        rw [List.map_map]
        apply List.map_congr_left
        intro r _
        show applyWrites key skey ov rest (if key r == skey s then ov r s else r)
          = applyWrites key skey ov (s :: rest) r
        rw [applyWrites_cons hovkey hovcongr]
        by_cases hrs : key r = skey s
        · rw [if_pos (by simp [hrs]), if_pos (by simp [hrs])]
        · rw [if_neg (by simp [hrs]), if_neg (by simp [hrs])]
      rw [hmaps]
      congr 1
      have hcontains : (tbl.map key).contains (skey s) = true := by
        obtain ⟨r, hr, hrs⟩ := List.any_eq_true.mp hk
        have hrs2 : key r = skey s := by simpa using hrs
        have : skey s ∈ tbl.map key := List.mem_map.mpr ⟨r, hr, hrs2⟩
        simp [this]
      rw [newPart_cons, if_pos hcontains]
    · have hstep : upsertStep key skey ov ins tbl s = tbl ++ [ins s] := by
        unfold upsertStep; rw [if_neg hk]
      rw [hstep, List.map_append, List.map_append]
      have hnomem : (tbl.map key).contains (skey s) = false := by
        apply Bool.eq_false_iff.mpr
        intro hc
        apply hk
        have : skey s ∈ tbl.map key := by simpa using hc
        obtain ⟨r, hr, hrk⟩ := List.mem_map.mp this
        exact List.any_eq_true.mpr ⟨r, hr, by simp [hrk]⟩
      have hRHS : newPart skey ov ins (s :: rest) (tbl.map key)
          = (((lastWrite skey rest (skey s)).map (fun s2 => ov (ins s) s2)).getD (ins s))
            :: newPart skey ov ins rest (skey s :: tbl.map key) := by
        rw [newPart_cons, if_neg (by rw [hnomem]; simp)]
      rw [hRHS]
      have hmapsingle : ([ins s]).map (applyWrites key skey ov rest)
          = [((lastWrite skey rest (skey s)).map (fun s2 => ov (ins s) s2)).getD (ins s)] := by
        simp only [List.map_cons, List.map_nil]
        congr 1
        unfold applyWrites
        rw [hinskey]
      have hkeysingle : ([ins s]).map key = [skey s] := by
        simp [hinskey]
      rw [hmapsingle, hkeysingle]
      have hnp : newPart skey ov ins rest (tbl.map key ++ [skey s])
          = newPart skey ov ins rest (skey s :: tbl.map key) := by
        apply newPart_congr
        intro k
        rw [List.contains_cons]
        induction tbl.map key with
        | nil => simp [List.contains_cons]
        | cons a t iht =>
          rw [List.cons_append, List.contains_cons, List.contains_cons, iht]
          cases k == skey s <;> cases k == a <;> cases t.contains k <;> rfl
      rw [hnp]
      have hmaps2 : tbl.map (applyWrites key skey ov rest)
          = tbl.map (applyWrites key skey ov (s :: rest)) := by
        apply List.map_congr_left
        intro r hr
        have hne : key r ≠ skey s := by
          intro he
          exact hk (List.any_eq_true.mpr ⟨r, hr, by simp [he]⟩)
        rw [applyWrites_cons hovkey hovcongr, if_neg (by simp [hne])]
      rw [hmaps2, List.append_assoc, List.singleton_append]

theorem upsertByKey_idem (hovkey : ∀ r s, key (ov r s) = key r)
    (hovcongr : ∀ r1 r2 s, key r1 = key r2 → ov r1 s = ov r2 s)
    (hinskey : ∀ s, key (ins s) = skey s)
    (hovins : ∀ s, ov (ins s) s = ins s) (src : List σ) (tbl : List ρ) :
    upsertByKey key skey ov ins src (upsertByKey key skey ov ins src tbl)
      = upsertByKey key skey ov ins src tbl := by
  rw [upsertByKey_char hovkey hovcongr hinskey src (upsertByKey key skey ov ins src tbl)]
  have hnil : newPart skey ov ins src ((upsertByKey key skey ov ins src tbl).map key) = [] := by
    apply newPart_nil_of_contains
    intro s hs
    obtain ⟨r, hr, hkr⟩ := upsertByKey_present hovkey hinskey src tbl s hs
    have : skey s ∈ (upsertByKey key skey ov ins src tbl).map key :=
      List.mem_map.mpr ⟨r, hr, hkr⟩
    simp [this]
  rw [hnil, List.append_nil]
  conv_rhs => rw [← List.map_id (upsertByKey key skey ov ins src tbl)]
  apply List.map_congr_left
  intro r hr
  show applyWrites key skey ov src r = r
  rw [upsertByKey_char hovkey hovcongr hinskey src tbl] at hr
  rcases List.mem_append.mp hr with hr | hr
  · obtain ⟨r0, _, rfl⟩ := List.mem_map.mp hr
    exact applyWrites_idem hovkey hovcongr src r0
  · exact newPart_fixed hovkey hovcongr hinskey hovins src (tbl.map key) r hr

end UpsertLemmas

/-! ## C5 and C8 : merge idempotence and the injury merge -/

theorem length_filterMap_eq_countP {α β : Type} (f : α → Option β) (l : List α) :
    (l.filterMap f).length = l.countP (fun a => (f a).isSome) := by
  induction l with
  | nil => rfl
  | cons a l ih =>
    rw [List.filterMap_cons, List.countP_cons]
    cases hf : f a with
    | none => simp [hf, ih]
    | some b => simp [hf, ih]

theorem upsert_injuries_length (stg : DF) (tbl : List FactInjuryRow) :
    (upsert_injuries_from_stg stg tbl).length
      = tbl.length + stg.rows.countP (fun row => !(getCell row "player_id" == Cell.null)) := by
  unfold upsert_injuries_from_stg
  rw [List.length_append, length_filterMap_eq_countP]
  congr 1
  apply List.countP_congr
  intro row _
  cases hc : getCell row "player_id" with
  | null => simp [injurySelectRow, hc]
  | str v => simp [injurySelectRow, hc]
  | int n => simp [injurySelectRow, hc]

/-- C5 counterexample: replaying the same injury staging snapshot is not
idempotent — the second run appends the same rows again. -/
theorem C5_counterexample :
    upsert_injuries_from_stg injStg1 (upsert_injuries_from_stg injStg1 [])
      ≠ upsert_injuries_from_stg injStg1 [] := by decide

/-- C5 (amended): re-upserting the same staging snapshot is a no-op for
`dim_player` and `fact_player_game`; the injury merge instead appends its
selected staging rows on every run, growing `fact_player_injury` by the
staged row count each time. -/
theorem C5_upsert_idempotence :
    (∀ (stg : DF) (tbl : List DimPlayerRow),
      upsert_players_from_stg stg (upsert_players_from_stg stg tbl)
        = upsert_players_from_stg stg tbl)
    ∧ (∀ (stg : DF) (tbl : List FactPlayerGameRow),
      upsert_player_games_from_stg stg (upsert_player_games_from_stg stg tbl)
        = upsert_player_games_from_stg stg tbl)
    ∧ (∀ (stg : DF) (tbl : List FactInjuryRow),
      (upsert_injuries_from_stg stg tbl).length
        = tbl.length
          + stg.rows.countP (fun row => !(getCell row "player_id" == Cell.null))) := by
  refine ⟨?_, ?_, ?_⟩
  · intro stg tbl
    unfold upsert_players_from_stg
    apply upsertByKey_idem
    · intro r s; rfl
    · intro r1 r2 s h
      cases r1; cases r2
      simp only [dimOverwrite]
      simp_all
    · intro s; rfl
    · intro s; rfl
  · intro stg tbl
    unfold upsert_player_games_from_stg
    apply upsertByKey_idem
    · intro r s; rfl
    · intro r1 r2 s h
      cases r1; cases r2
      simp only [factGameOverwrite]
      simp only [factGameKey, Prod.mk.injEq] at h
      simp_all
    · intro s; rfl
    · intro s; rfl
  · intro stg tbl
    exact upsert_injuries_length stg tbl

/-- C8 counterexample: a staging row whose (player, season, week) key is
already present in `fact_player_injury` is inserted anyway — the merge is an
unconditional append, not insert-if-absent. -/
theorem C8_counterexample :
    upsert_injuries_from_stg injStg1 [injRow1] = [injRow1, injRow1] := by decide

/-- C8 (amended): the injury merge never modifies or removes rows already in
the table (the pre-merge table is an unchanged prefix of the result) and
appends every staging row with a non-null player identifier, whether or not
its key is already present, so duplicates accumulate. -/
theorem C8_injury_merge_appends (stg : DF) (tbl : List FactInjuryRow) :
    tbl <+: upsert_injuries_from_stg stg tbl
    ∧ (upsert_injuries_from_stg stg tbl).length
        = tbl.length + stg.rows.countP (fun row => !(getCell row "player_id" == Cell.null))
    ∧ (∀ r ∈ upsert_injuries_from_stg stg tbl,
        r ∈ tbl ∨ ∃ row ∈ stg.rows, injurySelectRow row = some r) := by
  refine ⟨⟨_, rfl⟩, upsert_injuries_length stg tbl, ?_⟩
  intro r hr
  unfold upsert_injuries_from_stg at hr
  rcases List.mem_append.mp hr with hr | hr
  · exact Or.inl hr
  · exact Or.inr (List.mem_filterMap.mp hr)

/-- Witness for C8 at a concrete table and staging snapshot. -/
theorem C8_injury_merge_appends_witness :
    injRow1 ∈ ([injRow1] : List FactInjuryRow)
      ∨ ∃ row ∈ injStg1.rows, injurySelectRow row = some injRow1 :=
  (C8_injury_merge_appends injStg1 [injRow1]).2.2 injRow1 (by decide)

/-! ## C9 : the declared numeric fact columns -/

theorem getCell_single_same (c : String) (v : Cell) : getCell [(c, v)] c = v := by
  unfold getCell
  rw [List.find?_cons_of_pos _ (by simp)]
  rfl

theorem getCell_select_row (row : List (String × Cell)) (cs : List String) (c : String)
    (hc : c ∈ cs) :
    getCell (cs.map (fun c2 => (c2, getCell row c2))) c = getCell row c := by
  induction cs with
  | nil => cases hc
  | cons a t ih =>
    by_cases hac : c = a
    · subst hac
      unfold getCell
      rw [List.map_cons, List.find?_cons_of_pos _ (by simp)]
      rfl
    · unfold getCell at ih ⊢
      rw [List.map_cons, List.find?_cons_of_neg _ (by simp; exact fun h => hac h.symm)]
      exact ih (by
        rcases List.mem_cons.mp hc with h | h
        · exact absurd h hac
        · exact h)

theorem select_cols (df : DF) (cs : List String) : (df.select cs).cols = cs := rfl

theorem mem_select_rows {df : DF} {cs : List String} {row : List (String × Cell)}
    (h : row ∈ (df.select cs).rows) :
    ∃ row0 ∈ df.rows, row = cs.map (fun c => (c, getCell row0 c)) := by
  unfold DF.select at h
  obtain ⟨row0, h0, rfl⟩ := List.mem_map.mp h
  exact ⟨row0, h0, rfl⟩

theorem ensureNumericStep_wf {d : DF} (hwf : d.WF) (c : String) :
    (ensureNumericStep d c).WF := by
  unfold ensureNumericStep
  by_cases hc : c ∈ d.cols
  · rw [if_pos hc]; exact WF_mapCol hwf _ _
  · rw [if_neg hc]; exact WF_setConstCol hwf _ _

theorem ensureNumericStep_cols_sub (d : DF) (c : String) :
    d.cols ⊆ (ensureNumericStep d c).cols := by
  unfold ensureNumericStep
  by_cases hc : c ∈ d.cols
  · rw [if_pos hc]; exact fun x hx => hx
  · rw [if_neg hc]
    unfold DF.setConstCol
    rw [if_neg hc]
    exact fun x hx => List.mem_append_left _ hx

theorem ensureNumericStep_cols_self (d : DF) (c : String) :
    c ∈ (ensureNumericStep d c).cols := by
  unfold ensureNumericStep
  by_cases hc : c ∈ d.cols
  · rw [if_pos hc]; exact hc
  · rw [if_neg hc]
    unfold DF.setConstCol
    rw [if_neg hc]
    exact List.mem_append_right _ (List.mem_cons_self _ _)

theorem ensureNumericStep_establishes {d : DF} (hwf : d.WF) (c : String) :
    ∀ row ∈ (ensureNumericStep d c).rows, ∃ n : Int, getCell row c = Cell.int n := by
  unfold ensureNumericStep
  by_cases hc : c ∈ d.cols
  · rw [if_pos hc]
    intro row hrow
    unfold DF.coerceNumeric DF.mapCol at hrow
    obtain ⟨row0, hrow0, rfl⟩ := List.mem_map.mp hrow
    rw [getCell_mapCell_of_mem _ _ _ (by rw [hwf row0 hrow0]; exact hc)]
    exact ⟨_, rfl⟩
  · rw [if_neg hc]
    intro row hrow
    unfold DF.setConstCol at hrow
    rw [if_neg hc] at hrow
    obtain ⟨row0, hrow0, rfl⟩ := List.mem_map.mp hrow
    rw [getCell_append_right _ _ _ (by rw [hwf row0 hrow0]; exact hc),
      getCell_single_same]
    exact ⟨0, rfl⟩

theorem ensureNumericStep_preserves {d : DF} (hwf : d.WF) (c c0 : String)
    (h0 : c0 ∈ d.cols)
    (hprev : ∀ row ∈ d.rows, ∃ n : Int, getCell row c0 = Cell.int n) :
    ∀ row ∈ (ensureNumericStep d c).rows, ∃ n : Int, getCell row c0 = Cell.int n := by
  unfold ensureNumericStep
  by_cases hc : c ∈ d.cols
  · rw [if_pos hc]
    intro row hrow
    unfold DF.coerceNumeric DF.mapCol at hrow
    obtain ⟨row0, hrow0, rfl⟩ := List.mem_map.mp hrow
    by_cases hcc : c0 = c
    · subst hcc
      rw [getCell_mapCell_of_mem _ _ _ (by rw [hwf row0 hrow0]; exact h0)]
      obtain ⟨n, hn⟩ := hprev row0 hrow0
      rw [hn]
      exact ⟨n, rfl⟩
    · rw [getCell_mapCell_ne _ _ _ _ hcc]
      exact hprev row0 hrow0
  · rw [if_neg hc]
    intro row hrow
    unfold DF.setConstCol at hrow
    rw [if_neg hc] at hrow
    obtain ⟨row0, hrow0, rfl⟩ := List.mem_map.mp hrow
    rw [getCell_append_left _ _ _ (by rw [hwf row0 hrow0]; exact h0)]
    exact hprev row0 hrow0

theorem foldEnsure_wf (cs : List String) {d : DF} (hwf : d.WF) :
    (cs.foldl ensureNumericStep d).WF := by
  induction cs generalizing d with
  | nil => exact hwf
  | cons c cs ih => exact ih (ensureNumericStep_wf hwf c)

theorem foldEnsure_cols_sub (cs : List String) (d : DF) :
    d.cols ⊆ (cs.foldl ensureNumericStep d).cols := by
  induction cs generalizing d with
  | nil => exact fun x hx => hx
  | cons c cs ih =>
    exact fun x hx => ih (ensureNumericStep d c) (ensureNumericStep_cols_sub d c hx)

theorem foldEnsure_preserves (cs : List String) {d : DF} (hwf : d.WF) (c0 : String)
    (h0 : c0 ∈ d.cols)
    (hprev : ∀ row ∈ d.rows, ∃ n : Int, getCell row c0 = Cell.int n) :
    ∀ row ∈ (cs.foldl ensureNumericStep d).rows, ∃ n : Int, getCell row c0 = Cell.int n := by
  induction cs generalizing d with
  | nil => exact hprev
  | cons c cs ih =>
    exact ih (ensureNumericStep_wf hwf c) (ensureNumericStep_cols_sub d c h0)
      (ensureNumericStep_preserves hwf c c0 h0 hprev)

theorem foldEnsure_main (cs : List String) {d : DF} (hwf : d.WF) :
    ∀ c ∈ cs, c ∈ (cs.foldl ensureNumericStep d).cols
      ∧ ∀ row ∈ (cs.foldl ensureNumericStep d).rows, ∃ n : Int, getCell row c = Cell.int n := by
  induction cs generalizing d with
  | nil => intro c hc; cases hc
  | cons c0 cs ih =>
    intro c hc
    rcases List.mem_cons.mp hc with rfl | hc
    · constructor
      · exact foldEnsure_cols_sub cs (ensureNumericStep d c)
          (ensureNumericStep_cols_self d c)
      · exact foldEnsure_preserves cs (ensureNumericStep_wf hwf c) c
          (ensureNumericStep_cols_self d c) (ensureNumericStep_establishes hwf c)
    · exact ih (ensureNumericStep_wf hwf c0) c hc

theorem pgCoerce_pass_yards :
    ((prepare_player_game_for_staging pgCoerceInput).rows.map
      (fun row => getCell row "pass_yards")) = [Cell.int 0, Cell.int 120] := by decide

theorem pgCoerce_rush_yards :
    ((prepare_player_game_for_staging pgCoerceInput).rows.map
      (fun row => getCell row "rush_yards")) = [Cell.int 0, Cell.int 22] := by decide

theorem pgCoerce_fumbles :
    ((prepare_player_game_for_staging pgCoerceInput).rows.map
      (fun row => getCell row "fumbles")) = [Cell.int 0, Cell.int 0] := by decide

theorem pgCoerce_extra_dropped :
    "extra" ∉ (prepare_player_game_for_staging pgCoerceInput).cols := by decide

/-- C9: staging preparation of the player-game facts yields exactly the key
columns plus the thirteen declared numeric columns, every numeric cell an
integer (absent columns synthesized as zero, non-numeric or null cells
coerced to zero, extra columns dropped); the closed conjuncts check the
individual coercions on a concrete snapshot. -/
theorem C9_numeric_columns (df : DF) (hwf : df.WF)
    (hg : "game_id" ∈ df.cols) (hp : "player_id" ∈ df.cols) :
    (prepare_player_game_for_staging df).cols = playerGameStagingCols
    ∧ (∀ row ∈ (prepare_player_game_for_staging df).rows,
        ∀ c ∈ numericColumns, ∃ n : Int, getCell row c = Cell.int n)
    ∧ ((prepare_player_game_for_staging pgCoerceInput).rows.map
        (fun row => getCell row "pass_yards")) = [Cell.int 0, Cell.int 120]
    ∧ ((prepare_player_game_for_staging pgCoerceInput).rows.map
        (fun row => getCell row "rush_yards")) = [Cell.int 0, Cell.int 22]
    ∧ ((prepare_player_game_for_staging pgCoerceInput).rows.map
        (fun row => getCell row "fumbles")) = [Cell.int 0, Cell.int 0]
    ∧ "extra" ∉ (prepare_player_game_for_staging pgCoerceInput).cols := by
  have hwf3 : ((((df.astypeStr "game_id").astypeStr "player_id").dropna
      ["game_id", "player_id"]).rename pgRename).WF :=
    WF_rename (WF_dropna (WF_mapCol (WF_mapCol hwf _ _) _ _) _) _
  have hcols3 : ((((df.astypeStr "game_id").astypeStr "player_id").dropna
      ["game_id", "player_id"]).rename pgRename).cols = df.cols.map pgRename := rfl
  have hg3 : "game_id" ∈ ((((df.astypeStr "game_id").astypeStr "player_id").dropna
      ["game_id", "player_id"]).rename pgRename).cols := by
    rw [hcols3]
    exact List.mem_map.mpr ⟨"game_id", hg, rfl⟩
  have hp3 : "player_id" ∈ ((((df.astypeStr "game_id").astypeStr "player_id").dropna
      ["game_id", "player_id"]).rename pgRename).cols := by
    rw [hcols3]
    exact List.mem_map.mpr ⟨"player_id", hp, rfl⟩
  have hmain := foldEnsure_main numericColumns hwf3
  have hg4 := foldEnsure_cols_sub numericColumns _ hg3
  have hp4 := foldEnsure_cols_sub numericColumns _ hp3
  have hsel : playerGameStagingCols.filter
      (fun c => decide (c ∈ (numericColumns.foldl ensureNumericStep
        ((((df.astypeStr "game_id").astypeStr "player_id").dropna
          ["game_id", "player_id"]).rename pgRename)).cols)) = playerGameStagingCols := by
    apply List.filter_eq_self.mpr
    intro c hc
    rcases List.mem_append.mp hc with hc | hc
    · rcases List.mem_cons.mp hc with rfl | hc
      · exact decide_eq_true hg4
      · rcases List.mem_cons.mp hc with rfl | hc
        · exact decide_eq_true hp4
        · cases hc
    · exact decide_eq_true (hmain c hc).1
  have hform : prepare_player_game_for_staging df
      = (numericColumns.foldl ensureNumericStep
          ((((df.astypeStr "game_id").astypeStr "player_id").dropna
            ["game_id", "player_id"]).rename pgRename)).select
        (playerGameStagingCols.filter
          (fun c => decide (c ∈ (numericColumns.foldl ensureNumericStep
            ((((df.astypeStr "game_id").astypeStr "player_id").dropna
              ["game_id", "player_id"]).rename pgRename)).cols))) := rfl
  refine ⟨?_, ?_, pgCoerce_pass_yards, pgCoerce_rush_yards, pgCoerce_fumbles,
    pgCoerce_extra_dropped⟩
  · rw [hform, hsel, select_cols]
  · intro row hrow c hc
    rw [hform, hsel] at hrow
    obtain ⟨row0, hrow0, rfl⟩ := mem_select_rows hrow
    rw [getCell_select_row row0 playerGameStagingCols c
      (List.mem_append_right _ hc)]
    exact (hmain c hc).2 row0 hrow0

/-- Witness for C9 at the concrete coercion snapshot. -/
theorem C9_numeric_columns_witness :
    (prepare_player_game_for_staging pgCoerceInput).cols = playerGameStagingCols :=
  (C9_numeric_columns pgCoerceInput (by decide) (by decide) (by decide)).1

/-! ## C1 and C4 : the outer-merge combination -/

theorem keyOf_mergeRow (a b : CombinedRow) : keyOf (mergeRow a b) = keyOf a := rfl

theorem sameKey_iff (a b : CombinedRow) : sameKey a b = true ↔ keyOf a = keyOf b := by
  simp [sameKey, keyOf, Prod.mk.injEq]

theorem mergeRow_passNone {a b : CombinedRow} (ha : passNone a) (hb : passNone b) :
    passNone (mergeRow a b) := by
  obtain ⟨a1, a2, a3, a4, a5⟩ := ha
  obtain ⟨b1, b2, b3, b4, b5⟩ := hb
  exact ⟨by simp [mergeRow, a1, b1], by simp [mergeRow, a2, b2],
    by simp [mergeRow, a3, b3], by simp [mergeRow, a4, b4],
    by simp [mergeRow, a5, b5]⟩

theorem mergeRow_rushNone {a b : CombinedRow} (ha : rushNone a) (hb : rushNone b) :
    rushNone (mergeRow a b) := by
  obtain ⟨a1, a2, a3⟩ := ha
  obtain ⟨b1, b2, b3⟩ := hb
  exact ⟨by simp [mergeRow, a1, b1], by simp [mergeRow, a2, b2],
    by simp [mergeRow, a3, b3]⟩

theorem mergeRow_recNone {a b : CombinedRow} (ha : recNone a) (hb : recNone b) :
    recNone (mergeRow a b) := by
  obtain ⟨a1, a2, a3⟩ := ha
  obtain ⟨b1, b2, b3⟩ := hb
  exact ⟨by simp [mergeRow, a1, b1], by simp [mergeRow, a2, b2],
    by simp [mergeRow, a3, b3]⟩

theorem RowInv_mergeRow {pbp : List PBPRow} {a b : CombinedRow}
    (hk : keyOf a = keyOf b) (ha : RowInv pbp a) (hb : RowInv pbp b) :
    RowInv pbp (mergeRow a b) := by
  refine ⟨?_, ?_, ?_⟩
  · intro hnot
    rw [keyOf_mergeRow] at hnot
    exact mergeRow_passNone (ha.1 hnot) (hb.1 (by rw [← hk]; exact hnot))
  · intro hnot
    rw [keyOf_mergeRow] at hnot
    exact mergeRow_rushNone (ha.2.1 hnot) (hb.2.1 (by rw [← hk]; exact hnot))
  · intro hnot
    rw [keyOf_mergeRow] at hnot
    exact mergeRow_recNone (ha.2.2 hnot) (hb.2.2 (by rw [← hk]; exact hnot))

theorem outerMerge_map_keys (A B : List CombinedRow) :
    (outerMerge A B).map keyOf
      = A.map keyOf ++ (B.filter (fun r => !(A.any (fun l => sameKey l r)))).map keyOf := by
  unfold outerMerge
  rw [List.map_append, List.map_map]
  congr 1
  apply List.map_congr_left
  intro l _
  show keyOf (match B.find? (fun r => sameKey l r) with
    | some r => mergeRow l r
    | none => l) = keyOf l
  cases B.find? (fun r => sameKey l r) with
  | none => rfl
  | some b => rfl

theorem outerMerge_spec (pbp : List PBPRow) (A B : List CombinedRow)
    (hAn : (A.map keyOf).Nodup) (hBn : (B.map keyOf).Nodup)
    (hAi : ∀ r ∈ A, RowInv pbp r) (hBi : ∀ r ∈ B, RowInv pbp r) :
    ((outerMerge A B).map keyOf).Nodup
    ∧ (∀ k, k ∈ (outerMerge A B).map keyOf ↔ k ∈ A.map keyOf ∨ k ∈ B.map keyOf)
    ∧ (∀ r ∈ outerMerge A B, RowInv pbp r) := by
  refine ⟨?_, ?_, ?_⟩
  · rw [outerMerge_map_keys]
    apply List.Nodup.append hAn
    · exact ((List.filter_sublist B).map keyOf).nodup hBn
    · intro k hkA hkF
      obtain ⟨b, hbf, hkb⟩ := List.mem_map.mp hkF
      obtain ⟨hbB, hbh⟩ := List.mem_filter.mp hbf
      obtain ⟨a, haA, hka⟩ := List.mem_map.mp hkA
      have hsk : sameKey a b = true := (sameKey_iff a b).mpr (by rw [hka, hkb])
      have : A.any (fun l => sameKey l b) = true := List.any_eq_true.mpr ⟨a, haA, hsk⟩
      rw [this] at hbh
      exact Bool.noConfusion hbh
  · intro k
    rw [outerMerge_map_keys, List.mem_append]
    constructor
    · rintro (h | h)
      · exact Or.inl h
      · obtain ⟨b, hbf, hkb⟩ := List.mem_map.mp h
        exact Or.inr (List.mem_map.mpr ⟨b, (List.mem_filter.mp hbf).1, hkb⟩)
    · rintro (h | h)
      · exact Or.inl h
      · obtain ⟨b, hbB, hkb⟩ := List.mem_map.mp h
        by_cases hany : A.any (fun l => sameKey l b) = true
        · obtain ⟨a, haA, hsk⟩ := List.any_eq_true.mp hany
          have : keyOf a = keyOf b := (sameKey_iff a b).mp hsk
          exact Or.inl (List.mem_map.mpr ⟨a, haA, by rw [this, hkb]⟩)
        · refine Or.inr (List.mem_map.mpr ⟨b, ?_, hkb⟩)
          apply List.mem_filter.mpr
          refine ⟨hbB, ?_⟩
          simp only [Bool.not_eq_true] at hany
          rw [hany]
          rfl
  · intro r hr
    unfold outerMerge at hr
    rcases List.mem_append.mp hr with hr | hr
    · obtain ⟨l, hlA, rfl⟩ := List.mem_map.mp hr
      cases hf : B.find? (fun r => sameKey l r) with
      | none =>
        simp only [hf]
        exact hAi l hlA
      | some b =>
        simp only [hf]
        have hsk := List.find?_some hf
        have hbB := List.mem_of_find?_eq_some hf
        exact RowInv_mergeRow ((sameKey_iff l b).mp hsk) (hAi l hlA) (hBi b hbB)
    · exact hBi r (List.mem_of_mem_filter hr)

theorem passing_view_keys (pbp : List PBPRow) :
    ((extract_passing_stats pbp).map ofPassing).map keyOf = passingKeys pbp := by
  unfold extract_passing_stats
  rw [List.map_map, List.map_map]
  conv_rhs => rw [← List.map_id (passingKeys pbp)]
  apply List.map_congr_left
  intro k _
  show (k.1, k.2) = k
  exact Prod.mk.eta

theorem rushing_view_keys (pbp : List PBPRow) :
    ((extract_rushing_stats pbp).map ofRushing).map keyOf = rushingKeys pbp := by
  unfold extract_rushing_stats
  rw [List.map_map, List.map_map]
  conv_rhs => rw [← List.map_id (rushingKeys pbp)]
  apply List.map_congr_left
  intro k _
  show (k.1, k.2) = k
  exact Prod.mk.eta

theorem receiving_view_keys (pbp : List PBPRow) :
    ((extract_receiving_stats pbp).map ofReceiving).map keyOf = receivingKeys pbp := by
  unfold extract_receiving_stats
  rw [List.map_map, List.map_map]
  conv_rhs => rw [← List.map_id (receivingKeys pbp)]
  apply List.map_congr_left
  intro k _
  show (k.1, k.2) = k
  exact Prod.mk.eta

theorem passing_view_inv (pbp : List PBPRow) :
    ∀ r ∈ (extract_passing_stats pbp).map ofPassing, RowInv pbp r := by
  intro r hr
  have hkey : keyOf r ∈ passingKeys pbp := by
    rw [← passing_view_keys pbp]
    exact List.mem_map.mpr ⟨r, hr, rfl⟩
  obtain ⟨st, hst, rfl⟩ := List.mem_map.mp hr
  exact ⟨fun hnot => absurd hkey hnot, fun _ => ⟨rfl, rfl, rfl⟩, fun _ => ⟨rfl, rfl, rfl⟩⟩

theorem rushing_view_inv (pbp : List PBPRow) :
    ∀ r ∈ (extract_rushing_stats pbp).map ofRushing, RowInv pbp r := by
  intro r hr
  have hkey : keyOf r ∈ rushingKeys pbp := by
    rw [← rushing_view_keys pbp]
    exact List.mem_map.mpr ⟨r, hr, rfl⟩
  obtain ⟨st, hst, rfl⟩ := List.mem_map.mp hr
  exact ⟨fun _ => ⟨rfl, rfl, rfl, rfl, rfl⟩, fun hnot => absurd hkey hnot,
    fun _ => ⟨rfl, rfl, rfl⟩⟩

theorem receiving_view_inv (pbp : List PBPRow) :
    ∀ r ∈ (extract_receiving_stats pbp).map ofReceiving, RowInv pbp r := by
  intro r hr
  have hkey : keyOf r ∈ receivingKeys pbp := by
    rw [← receiving_view_keys pbp]
    exact List.mem_map.mpr ⟨r, hr, rfl⟩
  obtain ⟨st, hst, rfl⟩ := List.mem_map.mp hr
  exact ⟨fun _ => ⟨rfl, rfl, rfl, rfl, rfl⟩, fun _ => ⟨rfl, rfl, rfl⟩,
    fun hnot => absurd hkey hnot⟩

theorem combineStep_spec (pbp : List PBPRow) (acc : Option (List CombinedRow))
    (B : List CombinedRow) (SA : String × String → Prop)
    (hn : ((acc.getD []).map keyOf).Nodup)
    (hm : ∀ k, k ∈ (acc.getD []).map keyOf ↔ SA k)
    (hi : ∀ r ∈ acc.getD [], RowInv pbp r)
    (hBn : (B.map keyOf).Nodup) (hBi : ∀ r ∈ B, RowInv pbp r)
    (haccNil : acc = none → ∀ k, ¬ SA k) :
    (((combineStep acc B).getD []).map keyOf).Nodup
    ∧ (∀ k, k ∈ ((combineStep acc B).getD []).map keyOf ↔ (SA k ∨ k ∈ B.map keyOf))
    ∧ (∀ r ∈ (combineStep acc B).getD [], RowInv pbp r) := by
  unfold combineStep
  by_cases hB : B.isEmpty
  · rw [if_pos hB]
    have hBnil : B = [] := List.isEmpty_iff.mp hB
    subst hBnil
    refine ⟨hn, ?_, hi⟩
    intro k
    rw [hm k]
    simp
  · rw [if_neg hB]
    cases acc with
    | none =>
      refine ⟨hBn, ?_, hBi⟩
      intro k
      constructor
      · intro h; exact Or.inr h
      · rintro (h | h)
        · exact absurd h (haccNil rfl k)
        · exact h
    | some A =>
      simp only [Option.getD_some] at hn hm hi
      have hsp := outerMerge_spec pbp A B hn hBn hi hBi
      refine ⟨hsp.1, ?_, hsp.2.2⟩
      intro k
      show k ∈ (outerMerge A B).map keyOf ↔ (SA k ∨ k ∈ B.map keyOf)
      rw [hsp.2.1 k, hm k]

theorem combineStep_eq_none {acc : Option (List CombinedRow)} {B : List CombinedRow}
    (h : combineStep acc B = none) : acc = none ∧ B = [] := by
  unfold combineStep at h
  by_cases hB : B.isEmpty
  · rw [if_pos hB] at h
    exact ⟨h, List.isEmpty_iff.mp hB⟩
  · rw [if_neg hB] at h
    cases acc with
    | none => exact Option.noConfusion h
    | some A => exact Option.noConfusion h

theorem extract_passing_nil_iff (pbp : List PBPRow) :
    extract_passing_stats pbp = [] ↔ passingKeys pbp = [] := by
  unfold extract_passing_stats
  exact List.map_eq_nil

theorem extract_rushing_nil_iff (pbp : List PBPRow) :
    extract_rushing_stats pbp = [] ↔ rushingKeys pbp = [] := by
  unfold extract_rushing_stats
  exact List.map_eq_nil

theorem extract_receiving_nil_iff (pbp : List PBPRow) :
    extract_receiving_stats pbp = [] ↔ receivingKeys pbp = [] := by
  unfold extract_receiving_stats
  exact List.map_eq_nil

theorem acc_spec (pbp : List PBPRow) :
    (((combineStep (combineStep (combineStep none
      ((extract_passing_stats pbp).map ofPassing))
      ((extract_rushing_stats pbp).map ofRushing))
      ((extract_receiving_stats pbp).map ofReceiving)).getD []).map keyOf).Nodup
    ∧ (∀ k, k ∈ ((combineStep (combineStep (combineStep none
      ((extract_passing_stats pbp).map ofPassing))
      ((extract_rushing_stats pbp).map ofRushing))
      ((extract_receiving_stats pbp).map ofReceiving)).getD []).map keyOf ↔
        (k ∈ passingKeys pbp ∨ k ∈ rushingKeys pbp ∨ k ∈ receivingKeys pbp))
    ∧ (∀ r ∈ (combineStep (combineStep (combineStep none
      ((extract_passing_stats pbp).map ofPassing))
      ((extract_rushing_stats pbp).map ofRushing))
      ((extract_receiving_stats pbp).map ofReceiving)).getD [], RowInv pbp r) := by
  have h1 := combineStep_spec pbp none ((extract_passing_stats pbp).map ofPassing)
    (fun _ => False) (by simp) (by simp) (by intro r hr; cases hr)
    (by rw [passing_view_keys]; exact nodup_dropDup _) (passing_view_inv pbp)
    (fun _ k hk => hk)
  have h1m : ∀ k, k ∈ ((combineStep none ((extract_passing_stats pbp).map ofPassing)).getD
      []).map keyOf ↔ k ∈ passingKeys pbp := by
    intro k
    rw [h1.2.1 k, passing_view_keys]
    simp
  have hnone1 : combineStep none ((extract_passing_stats pbp).map ofPassing) = none →
      ∀ k, ¬ k ∈ passingKeys pbp := by
    intro heq k hk
    obtain ⟨-, hP⟩ := combineStep_eq_none heq
    rw [List.map_eq_nil] at hP
    rw [(extract_passing_nil_iff pbp).mp hP] at hk
    cases hk
  have h2 := combineStep_spec pbp
    (combineStep none ((extract_passing_stats pbp).map ofPassing))
    ((extract_rushing_stats pbp).map ofRushing)
    (fun k => k ∈ passingKeys pbp) h1.1 h1m h1.2.2
    (by rw [rushing_view_keys]; exact nodup_dropDup _) (rushing_view_inv pbp)
    hnone1
  have h2m : ∀ k, k ∈ ((combineStep (combineStep none
      ((extract_passing_stats pbp).map ofPassing))
      ((extract_rushing_stats pbp).map ofRushing)).getD []).map keyOf ↔
      (k ∈ passingKeys pbp ∨ k ∈ rushingKeys pbp) := by
    intro k
    rw [h2.2.1 k, rushing_view_keys]
  have hnone2 : combineStep (combineStep none
      ((extract_passing_stats pbp).map ofPassing))
      ((extract_rushing_stats pbp).map ofRushing) = none →
      ∀ k, ¬ (k ∈ passingKeys pbp ∨ k ∈ rushingKeys pbp) := by
    intro heq k hk
    obtain ⟨heq1, hR⟩ := combineStep_eq_none heq
    rw [List.map_eq_nil] at hR
    rcases hk with hk | hk
    · exact hnone1 heq1 k hk
    · rw [(extract_rushing_nil_iff pbp).mp hR] at hk
      cases hk
  have h3 := combineStep_spec pbp
    (combineStep (combineStep none ((extract_passing_stats pbp).map ofPassing))
      ((extract_rushing_stats pbp).map ofRushing))
    ((extract_receiving_stats pbp).map ofReceiving)
    (fun k => k ∈ passingKeys pbp ∨ k ∈ rushingKeys pbp) h2.1 h2m h2.2.2
    (by rw [receiving_view_keys]; exact nodup_dropDup _) (receiving_view_inv pbp)
    hnone2
  refine ⟨h3.1, ?_, h3.2.2⟩
  intro k
  rw [h3.2.1 k, receiving_view_keys]
  tauto

theorem fillAdd_key (b1 b2 b3 : Bool) (r : CombinedRow) :
    keyOf (addTotal b1 b2 b3 (fillRow b1 b2 b3 r)) = keyOf r := by
  unfold addTotal fillRow keyOf
  split <;> rfl

theorem fillAdd_passSome (b2 b3 : Bool) (r : CombinedRow) :
    passSome (addTotal true b2 b3 (fillRow true b2 b3 r)) := by
  unfold addTotal fillRow passSome
  split <;> simp

theorem fillAdd_rushSome (b1 b3 : Bool) (r : CombinedRow) :
    rushSome (addTotal b1 true b3 (fillRow b1 true b3 r)) := by
  unfold addTotal fillRow rushSome
  split <;> simp

theorem fillAdd_recSome (b1 b2 : Bool) (r : CombinedRow) :
    recSome (addTotal b1 b2 true (fillRow b1 b2 true r)) := by
  unfold addTotal fillRow recSome
  split <;> simp

theorem fillAdd_passZero (b2 b3 : Bool) (r : CombinedRow) (h : passNone r) :
    passZero (addTotal true b2 b3 (fillRow true b2 b3 r)) := by
  obtain ⟨h1, h2, h3, h4, h5⟩ := h
  unfold addTotal fillRow passZero
  split <;> simp [h1, h2, h3, h4, h5]

theorem fillAdd_rushZero (b1 b3 : Bool) (r : CombinedRow) (h : rushNone r) :
    rushZero (addTotal b1 true b3 (fillRow b1 true b3 r)) := by
  obtain ⟨h1, h2, h3⟩ := h
  unfold addTotal fillRow rushZero
  split <;> simp [h1, h2, h3]

theorem fillAdd_recZero (b1 b2 : Bool) (r : CombinedRow) (h : recNone r) :
    recZero (addTotal b1 b2 true (fillRow b1 b2 true r)) := by
  obtain ⟨h1, h2, h3⟩ := h
  unfold addTotal fillRow recZero
  split <;> simp [h1, h2, h3]

theorem hasPass_false_keys (pbp : List PBPRow) (h : (!(extract_passing_stats pbp).isEmpty) = false) :
    passingKeys pbp = [] := by
  rw [Bool.not_eq_false'] at h
  exact (extract_passing_nil_iff pbp).mp (List.isEmpty_iff.mp h)

theorem hasRush_false_keys (pbp : List PBPRow) (h : (!(extract_rushing_stats pbp).isEmpty) = false) :
    rushingKeys pbp = [] := by
  rw [Bool.not_eq_false'] at h
  exact (extract_rushing_nil_iff pbp).mp (List.isEmpty_iff.mp h)

theorem hasRec_false_keys (pbp : List PBPRow) (h : (!(extract_receiving_stats pbp).isEmpty) = false) :
    receivingKeys pbp = [] := by
  rw [Bool.not_eq_false'] at h
  exact (extract_receiving_nil_iff pbp).mp (List.isEmpty_iff.mp h)

/-- C1: the combined stat table has exactly one row per (game, player) pair
appearing in any of the three role views — unique keys whose set is the
union of the three views' groupby keys — and, for every category whose
column group exists in the frame, every row holds a value in each of its
columns (never null), with all of them zero when the row's key never
appeared in that category; a category's column group is absent only when no
key appeared in it at all. -/
theorem C1_combined_rows_complete (pbp : List PBPRow) :
    ((transform_pbp_to_player_game pbp).rows.map keyOf).Nodup
    ∧ (∀ k, k ∈ (transform_pbp_to_player_game pbp).rows.map keyOf
        ↔ (k ∈ passingKeys pbp ∨ k ∈ rushingKeys pbp ∨ k ∈ receivingKeys pbp))
    ∧ (∀ r ∈ (transform_pbp_to_player_game pbp).rows,
        ((transform_pbp_to_player_game pbp).hasPass = true →
          passSome r ∧ (keyOf r ∉ passingKeys pbp → passZero r))
        ∧ ((transform_pbp_to_player_game pbp).hasPass = false → passingKeys pbp = [])
        ∧ ((transform_pbp_to_player_game pbp).hasRush = true →
          rushSome r ∧ (keyOf r ∉ rushingKeys pbp → rushZero r))
        ∧ ((transform_pbp_to_player_game pbp).hasRush = false → rushingKeys pbp = [])
        ∧ ((transform_pbp_to_player_game pbp).hasRec = true →
          recSome r ∧ (keyOf r ∉ receivingKeys pbp → recZero r))
        ∧ ((transform_pbp_to_player_game pbp).hasRec = false → receivingKeys pbp = [])) := by
  obtain ⟨hn, hm, hi⟩ := acc_spec pbp
  have hrows : (transform_pbp_to_player_game pbp).rows
      = ((combineStep (combineStep (combineStep none
      ((extract_passing_stats pbp).map ofPassing))
      ((extract_rushing_stats pbp).map ofRushing))
      ((extract_receiving_stats pbp).map ofReceiving)).getD []).map (fun r => addTotal (!(extract_passing_stats pbp).isEmpty) (!(extract_rushing_stats pbp).isEmpty) (!(extract_receiving_stats pbp).isEmpty)
      (fillRow (!(extract_passing_stats pbp).isEmpty) (!(extract_rushing_stats pbp).isEmpty) (!(extract_receiving_stats pbp).isEmpty) r)) := rfl
  have hmapped : (((combineStep (combineStep (combineStep none
      ((extract_passing_stats pbp).map ofPassing))
      ((extract_rushing_stats pbp).map ofRushing))
      ((extract_receiving_stats pbp).map ofReceiving)).getD []).map (fun r => addTotal (!(extract_passing_stats pbp).isEmpty) (!(extract_rushing_stats pbp).isEmpty) (!(extract_receiving_stats pbp).isEmpty)
      (fillRow (!(extract_passing_stats pbp).isEmpty) (!(extract_rushing_stats pbp).isEmpty) (!(extract_receiving_stats pbp).isEmpty) r))).map keyOf = ((combineStep (combineStep (combineStep none
      ((extract_passing_stats pbp).map ofPassing))
      ((extract_rushing_stats pbp).map ofRushing))
      ((extract_receiving_stats pbp).map ofReceiving)).getD []).map keyOf := by
    rw [List.map_map]
    apply List.map_congr_left
    intro r _
    exact fillAdd_key _ _ _ r
  refine ⟨?_, ?_, ?_⟩
  · rw [hrows, hmapped]
    exact hn
  · intro k
    rw [hrows, hmapped]
    exact hm k
  · intro r hr
    rw [hrows] at hr
    obtain ⟨r0, hr0, rfl⟩ := List.mem_map.mp hr
    have hinv := hi r0 hr0
    refine ⟨?_, fun hb => hasPass_false_keys pbp hb, ?_,
      fun hb => hasRush_false_keys pbp hb, ?_, fun hb => hasRec_false_keys pbp hb⟩
    · intro hb
      have hb2 : (!(extract_passing_stats pbp).isEmpty) = true := hb
      rw [hb2]
      refine ⟨fillAdd_passSome _ _ r0, ?_⟩
      intro hnot
      rw [fillAdd_key] at hnot
      exact fillAdd_passZero _ _ r0 (hinv.1 hnot)
    · intro hb
      have hb2 : (!(extract_rushing_stats pbp).isEmpty) = true := hb
      rw [hb2]
      refine ⟨fillAdd_rushSome _ _ r0, ?_⟩
      intro hnot
      rw [fillAdd_key] at hnot
      exact fillAdd_rushZero _ _ r0 (hinv.2.1 hnot)
    · intro hb
      have hb2 : (!(extract_receiving_stats pbp).isEmpty) = true := hb
      rw [hb2]
      refine ⟨fillAdd_recSome _ _ r0, ?_⟩
      intro hnot
      rw [fillAdd_key] at hnot
      exact fillAdd_recZero _ _ r0 (hinv.2.2 hnot)

/-- Witness for C1 on the section-8 scenario: the scenario passer's key
appears, and the rusher-only row has zero-filled passing columns. -/
theorem C1_combined_rows_complete_witness :
    ("G1", "p1") ∈ (transform_pbp_to_player_game scenarioPbp).rows.map keyOf
    ∧ passZero (scenarioExpected.rows.get ⟨1, by decide⟩) := by
  constructor
  · exact ((C1_combined_rows_complete scenarioPbp).2.1 ("G1", "p1")).mpr
      (Or.inl (by decide))
  · exact (((C1_combined_rows_complete scenarioPbp).2.2
      (scenarioExpected.rows.get ⟨1, by decide⟩) (by decide)).1 (by decide)).2 (by decide)

theorem fillAdd_total (pbp : List PBPRow) (b1 b2 b3 : Bool) (r : CombinedRow)
    (hinv : RowInv pbp r)
    (hp : b1 = false → passingKeys pbp = [])
    (hru : b2 = false → rushingKeys pbp = [])
    (hrc : b3 = false → receivingKeys pbp = [])
    (hne : (b1 || b2 || b3) = true) :
    (addTotal b1 b2 b3 (fillRow b1 b2 b3 r)).total_tds
      = some ((addTotal b1 b2 b3 (fillRow b1 b2 b3 r)).pass_tds.getD 0
          + (addTotal b1 b2 b3 (fillRow b1 b2 b3 r)).rush_tds.getD 0
          + (addTotal b1 b2 b3 (fillRow b1 b2 b3 r)).rec_tds.getD 0) := by
  have hP : b1 = false → r.pass_tds = none :=
    fun hb => (hinv.1 (by rw [hp hb]; exact List.not_mem_nil _)).2.2.2.1
  have hR : b2 = false → r.rush_tds = none :=
    fun hb => (hinv.2.1 (by rw [hru hb]; exact List.not_mem_nil _)).2.2
  have hC : b3 = false → r.rec_tds = none :=
    fun hb => (hinv.2.2 (by rw [hrc hb]; exact List.not_mem_nil _)).2.2
  cases b1 <;> cases b2 <;> cases b3 <;> simp_all [addTotal, fillRow]

theorem scenario_eval :
    transform_pbp_to_player_game scenarioPbp = scenarioExpected := by decide

/-- C4: in every combined row, `total_tds` is the sum of the `_tds` columns
present in the row (an absent column contributes nothing), and on the
section-8 scenario the combined table is exactly the two expected rows:
`p1` with the touchdown double-counted as passing and receiving
(`total_tds = 2`), `p2` with all passing/receiving columns zero. -/
theorem C4_total_tds :
    (∀ pbp : List PBPRow, ∀ r ∈ (transform_pbp_to_player_game pbp).rows,
      r.total_tds = some (r.pass_tds.getD 0 + r.rush_tds.getD 0 + r.rec_tds.getD 0))
    ∧ transform_pbp_to_player_game scenarioPbp = scenarioExpected := by
  refine ⟨?_, scenario_eval⟩
  intro pbp r hr
  have hrows : (transform_pbp_to_player_game pbp).rows
      = ((combineStep (combineStep (combineStep none
      ((extract_passing_stats pbp).map ofPassing))
      ((extract_rushing_stats pbp).map ofRushing))
      ((extract_receiving_stats pbp).map ofReceiving)).getD []).map (fun r => addTotal (!(extract_passing_stats pbp).isEmpty) (!(extract_rushing_stats pbp).isEmpty) (!(extract_receiving_stats pbp).isEmpty)
      (fillRow (!(extract_passing_stats pbp).isEmpty) (!(extract_rushing_stats pbp).isEmpty) (!(extract_receiving_stats pbp).isEmpty) r)) := rfl
  rw [hrows] at hr
  obtain ⟨r0, hr0, rfl⟩ := List.mem_map.mp hr
  have hinv := (acc_spec pbp).2.2 r0 hr0
  by_cases hne : ((!(extract_passing_stats pbp).isEmpty) || (!(extract_rushing_stats pbp).isEmpty) || (!(extract_receiving_stats pbp).isEmpty)) = true
  · exact fillAdd_total pbp _ _ _ r0 hinv
      (fun h => hasPass_false_keys pbp h)
      (fun h => hasRush_false_keys pbp h)
      (fun h => hasRec_false_keys pbp h) hne
  · exfalso
    have hall : (!(extract_passing_stats pbp).isEmpty) = false ∧ (!(extract_rushing_stats pbp).isEmpty) = false ∧ (!(extract_receiving_stats pbp).isEmpty) = false := by
      cases hx1 : (!(extract_passing_stats pbp).isEmpty) <;> cases hx2 : (!(extract_rushing_stats pbp).isEmpty) <;> cases hx3 : (!(extract_receiving_stats pbp).isEmpty) <;>
        simp_all
    have hPnil : (extract_passing_stats pbp).map ofPassing = [] := by
      rw [List.map_eq_nil, extract_passing_nil_iff pbp]
      exact hasPass_false_keys pbp hall.1
    have hRnil : (extract_rushing_stats pbp).map ofRushing = [] := by
      rw [List.map_eq_nil, extract_rushing_nil_iff pbp]
      exact hasRush_false_keys pbp hall.2.1
    have hCnil : (extract_receiving_stats pbp).map ofReceiving = [] := by
      rw [List.map_eq_nil, extract_receiving_nil_iff pbp]
      exact hasRec_false_keys pbp hall.2.2
    rw [hPnil, hRnil, hCnil] at hr0
    cases hr0

/-- Witness for C4: the scenario's `p1` row satisfies the `total_tds`
equation with the double-counted touchdown. -/
theorem C4_total_tds_witness :
    (scenarioExpected.rows.get ⟨0, by decide⟩).total_tds
      = some ((scenarioExpected.rows.get ⟨0, by decide⟩).pass_tds.getD 0
          + (scenarioExpected.rows.get ⟨0, by decide⟩).rush_tds.getD 0
          + (scenarioExpected.rows.get ⟨0, by decide⟩).rec_tds.getD 0) :=
  C4_total_tds.1 scenarioPbp _ (by decide)

end NflEtl
